import Mathlib

/-!
# Browser detection of `user_agent` (`browser.go`)

A shallow embedding of `(*UserAgent).detectBrowser` and of the library
operations it calls, followed by theorems about it.

Go strings are immutable byte sequences: comparison, `strings.HasPrefix` and
the slice expressions `v[8:]` and `comment[1][4:]` all work on bytes, so a
string is embedded as the list of its bytes.  A run-time panic does not undo
the writes already made through the pointer receiver, so a call is embedded
as a function from the receiver before the call to the receiver after it,
together with the panic that stopped it, if any.
-/

namespace user_agent

/-- A Go `string`: a sequence of bytes. -/
abbrev GoString := List Nat

/-- The UTF-8 encoding of one code point. -/
def utf8EncodeChar (c : Char) : List Nat :=
  let n := c.toNat
  if n < 0x80 then [n]
  else if n < 0x800 then [0xC0 + n / 0x40, 0x80 + n % 0x40]
  else if n < 0x10000 then [0xE0 + n / 0x1000, 0x80 + n / 0x40 % 0x40, 0x80 + n % 0x40]
  else [0xF0 + n / 0x40000, 0x80 + n / 0x1000 % 0x40, 0x80 + n / 0x40 % 0x40, 0x80 + n % 0x40]

/-- A Go string literal: the UTF-8 bytes of its text. -/
def str (s : String) : GoString := s.toList.flatMap utf8EncodeChar

/-- The run-time panics of Go that indexing and slicing can raise. -/
inductive RuntimeError where
  | indexOutOfRange (index length : Nat)
  | sliceBoundsOutOfRange (low length : Nat)
  deriving DecidableEq

/-- The struct `Browser` (`browser.go`, lines 19-31). -/
structure Browser where
  Engine : GoString
  EngineVersion : GoString
  Name : GoString
  Version : GoString
  deriving DecidableEq

/-- Modelled from the spec: the struct `section` is declared outside `browser.go`;
it has a product name, a product version and the ordered comment tokens. -/
structure Section where
  name : GoString
  version : GoString
  comment : List GoString
  deriving DecidableEq

/-- Modelled from the spec: the struct `UserAgent` is declared outside `browser.go`;
`detectBrowser` touches its fields `mozilla` (the compatibility flag) and
`browser` (the identity record) only. -/
structure UserAgent where
  mozilla : GoString
  browser : Browser
  deriving DecidableEq

/-- The receiver as a call leaves it, and the panic that ended the call, if any. -/
structure Outcome where
  ua : UserAgent
  panic : Option RuntimeError
  deriving DecidableEq

/-- The call returned normally. -/
def done (p : UserAgent) : Outcome := ⟨p, none⟩

/-- The call was stopped by a run-time panic. -/
def abort (p : UserAgent) (e : RuntimeError) : Outcome := ⟨p, some e⟩

/-- The statement `p.mozilla = v`. -/
def setMozilla (p : UserAgent) (v : GoString) : UserAgent := { p with mozilla := v }

/-- The statement `p.browser.Engine = v`. -/
def setEngine (p : UserAgent) (v : GoString) : UserAgent :=
  { p with browser := { p.browser with Engine := v } }

/-- The statement `p.browser.EngineVersion = v`. -/
def setEngineVersion (p : UserAgent) (v : GoString) : UserAgent :=
  { p with browser := { p.browser with EngineVersion := v } }

/-- The statement `p.browser.Name = v`. -/
def setName (p : UserAgent) (v : GoString) : UserAgent :=
  { p with browser := { p.browser with Name := v } }

/-- The statement `p.browser.Version = v`. -/
def setVersion (p : UserAgent) (v : GoString) : UserAgent :=
  { p with browser := { p.browser with Version := v } }

/-- The library function `strings.HasPrefix`: `s` begins with the bytes of `pre`. -/
def HasPrefix (s pre : GoString) : Bool := pre.isPrefixOf s

/-- The slice expression `s[low:]`: it panics when `low > len(s)`. -/
def sliceFrom (s : GoString) (low : Nat) : Except RuntimeError GoString :=
  if low ≤ s.length then .ok (s.drop low) else .error (.sliceBoundsOutOfRange low s.length)

/-- The index expression `xs[i]`: it panics when `i >= len(xs)`. -/
def index {α : Type} (xs : List α) (i : Nat) : Except RuntimeError α :=
  match xs[i]? with
  | some x => .ok x
  | none => .error (.indexOutOfRange i xs.length)

/-- The UTF-8 encodings of the code points for which `unicode.IsSpace` holds. -/
def spaceEncodings : List GoString :=
  [[0x09], [0x0A], [0x0B], [0x0C], [0x0D], [0x20],
   [0xC2, 0x85], [0xC2, 0xA0], [0xE1, 0x9A, 0x80],
   [0xE2, 0x80, 0x80], [0xE2, 0x80, 0x81], [0xE2, 0x80, 0x82], [0xE2, 0x80, 0x83],
   [0xE2, 0x80, 0x84], [0xE2, 0x80, 0x85], [0xE2, 0x80, 0x86], [0xE2, 0x80, 0x87],
   [0xE2, 0x80, 0x88], [0xE2, 0x80, 0x89], [0xE2, 0x80, 0x8A],
   [0xE2, 0x80, 0xA8], [0xE2, 0x80, 0xA9], [0xE2, 0x80, 0xAF],
   [0xE2, 0x81, 0x9F], [0xE3, 0x80, 0x80]]

/-- Number of bytes of the member of `encs` that `s` begins with, `0` when there is none. -/
def leadingLen (encs : List GoString) (s : GoString) : Nat :=
  match encs.find? (fun e => e.isPrefixOf s) with
  | some e => e.length
  | none => 0

/-- Drop members of `encs` from the front of `s` for as long as there is one. -/
def trimLeading (encs : List GoString) : Nat → GoString → GoString
  | 0, s => s
  | fuel + 1, s =>
    if leadingLen encs s = 0 then s
    else trimLeading encs fuel (s.drop (leadingLen encs s))

/-- The library function `strings.TrimSpace`: `s` without its leading and trailing
white space, as Unicode defines it. -/
def TrimSpace (s : GoString) : GoString :=
  let t := trimLeading spaceEncodings s.length s
  (trimLeading (spaceEncodings.map List.reverse) t.length t.reverse).reverse

/-- The bytes of the character class `[0-9.]`. -/
def isVersionByte (b : Nat) : Bool := (0x30 ≤ b && b ≤ 0x39) || b = 0x2E

/-- `rvRe.FindStringSubmatch(c)` for `rvRe = regexp.MustCompile("^rv:(.+)$")`: the whole
match and the group when `c` is `rv:` followed by one or more bytes none of which is a
line feed, and the empty (nil) slice otherwise. -/
def rvRe_FindStringSubmatch (c : GoString) : List GoString :=
  if HasPrefix c (str "rv:") then
    let rest := c.drop 3
    if rest ≠ [] ∧ 0x0A ∉ rest then [c, rest] else []
  else []

/-- `tridentRe.FindStringSubmatch(c)` for
`tridentRe = regexp.MustCompile("^Trident/([0-9.]+)")`: the whole match and the group
when `c` begins with `Trident/` and a digit or dot, the group being the longest run of
digits and dots there; the empty (nil) slice otherwise. -/
def tridentRe_FindStringSubmatch (c : GoString) : List GoString :=
  if HasPrefix c (str "Trident/") then
    let run := (c.drop 8).takeWhile isVersionByte
    if run ≠ [] then [str "Trident/" ++ run, run] else []
  else []

/-- Lines 120-126: the first comment token that `tridentRe` matches gives
`EngineVersion`. -/
def tridentLoop (p : UserAgent) : List GoString → Outcome
  | [] => done p
  | c :: cs =>
    let version := tridentRe_FindStringSubmatch c
    if version.length > 0 then
      match index version 1 with
      | .error e => abort p e
      | .ok v => done (setEngineVersion p v)
    else tridentLoop p cs

/-- Lines 127-134: the first comment token that `rvRe` matches gives `Version` and the
call returns; when the loop ends without a match, `Version` is cleared. -/
def rvLoop (p : UserAgent) : List GoString → Outcome
  | [] => done (setVersion p (str ""))
  | c :: cs =>
    let version := rvRe_FindStringSubmatch c
    if version.length > 0 then
      match index version 1 with
      | .error e => abort p e
      | .ok v => done (setVersion p v)
    else rvLoop p cs

/-- Lines 156-165: the `switch` on `p.browser.EngineVersion`. -/
def versionSwitch (p : UserAgent) : UserAgent :=
  if p.browser.EngineVersion = str "4.0" then setVersion p (str "8.0")
  else if p.browser.EngineVersion = str "5.0" then setVersion p (str "9.0")
  else if p.browser.EngineVersion = str "6.0" then setVersion p (str "10.0")
  else if p.browser.EngineVersion = str "7.0" then setVersion p (str "11.0")
  else p

/-- Lines 151-168: the loop over the comment of a legacy Internet Explorer agent,
left at the first token that starts with `Trident/`. -/
def legacyLoop (p : UserAgent) : List GoString → Outcome
  | [] => done p
  | v :: vs =>
    if HasPrefix v (str "Trident/") then
      if p.browser.EngineVersion = str "" then
        match sliceFrom v 8 with
        | .error e => abort p e
        | .ok t => done (versionSwitch (setEngineVersion p t))
      else done (versionSwitch p)
    else legacyLoop p vs

/-- Lines 142-176: the detection of an old-style Internet Explorer agent; `s0` is
`sections[0]`, which the caller has read already. -/
def legacyIE (p : UserAgent) (slen : Nat) (s0 : Section) : Outcome :=
  if slen = 1 ∧ s0.comment.length > 1 then
    let comment := s0.comment
    match index comment 0 with
    | .error e => abort p e
    | .ok c0 =>
      if c0 = str "compatible" then
        match index comment 1 with
        | .error e => abort p e
        | .ok c1 =>
          if HasPrefix c1 (str "MSIE") ∨ HasPrefix c1 (str "IE") then
            let p := setEngine p (str "Trident")
            let p := setName p (str "Internet Explorer")
            match legacyLoop p comment with
            | ⟨p, some e⟩ => abort p e
            | ⟨p, none⟩ =>
              -- If the Trident token is not provided, fall back to MSIE token.
              if p.browser.Version = str "" then
                match sliceFrom c1 4 with
                | .error e => abort p e
                | .ok t => done (setVersion p (TrimSpace t))
              else done p
          else done p
      else done p
  else done p

/-- Lines 86-139: the traditional multiple browser agent format; `s0` is `sections[0]`,
which the caller has read already. -/
def multiSection (p : UserAgent) (sections : List Section) (s0 : Section) : Outcome :=
  let slen := sections.length
  match index sections 1 with
  | .error e => abort p e
  | .ok engine =>
    let p := setEngine p engine.name
    let p := setEngineVersion p engine.version
    if slen > 2 then
      match index sections 2 with
      | .error e => abort p e
      | .ok s2 =>
        let p := setVersion p s2.version
        if engine.name = str "AppleWebKit" then
          match index sections (slen - 1) with
          | .error e => abort p e
          | .ok last =>
            if last.name = str "Edge" then
              let p := setName p (str "Edge")
              let p := setVersion p last.version
              let p := setEngine p (str "EdgeHTML")
              done (setEngineVersion p (str ""))
            else if last.name = str "OPR" then
              let p := setName p (str "Opera")
              done (setVersion p last.version)
            else if s2.name = str "Chrome" then done (setName p (str "Chrome"))
            else done (setName p (str "Safari"))
        else if engine.name = str "Gecko" then
          let name := s2.name
          if name = str "MRA" ∧ slen > 4 then
            match index sections 4 with
            | .error e => abort p e
            | .ok s4 =>
              let name := s4.name
              let p := setVersion p s4.version
              done (setName p name)
          else done (setName p name)
        else if engine.name = str "like" ∧ s2.name = str "Gecko" then
          -- This is the new user agent from Internet Explorer 11.
          let p := setEngine p (str "Trident")
          let p := setName p (str "Internet Explorer")
          match tridentLoop p s0.comment with
          | ⟨p, some e⟩ => abort p e
          | ⟨p, none⟩ => rvLoop p s0.comment
        else done p
    else done p

/-- The method `(*UserAgent).detectBrowser` (lines 38-177): `p` is the receiver before
the call. -/
def detectBrowser (p : UserAgent) (sections : List Section) : Outcome :=
  let slen := sections.length
  match index sections 0 with
  | .error e => abort p e
  | .ok s0 =>
    -- special cases
    if s0.name = str "Opera" then
      let p := setMozilla p (str "")
      let p := setName p (str "Opera")
      let p := setVersion p s0.version
      let p := setEngine p (str "Presto")
      if slen > 1 then
        match index sections 1 with
        | .error e => abort p e
        | .ok s1 => done (setEngineVersion p s1.version)
      else done p
    else if s0.name = str "Chrome" then
      let p := setMozilla p (str "5.0")
      let p := setName p (str "Chrome")
      if slen > 2 then
        match index sections 2 with
        | .error e => abort p e
        | .ok s2 =>
          let p := setVersion p s2.name
          done (setEngine p (str "AppleWebKit"))
      else done p
    else if s0.name = str "WinHttp-Autoproxy-Service" then
      let p := setMozilla p (str "")
      let p := setName p (str "WinHttpAutoproxyService")
      done (setVersion p s0.version)
    else if s0.name = str "Microsoft-WNS" then
      let p := setMozilla p (str "")
      done (setName p (str "WNS"))
    else if s0.name = str "Microsoft" then
      if slen > 1 then
        match index sections 1 with
        | .error e => abort p e
        | .ok s1 =>
          if s1.name = str "NCSI" then
            let p := setMozilla p (str "")
            done (setName p s1.name)
          else done p
      else done p
    else
      -- set mozilla version
      let p := setMozilla p s0.version
      if slen > 1 then multiSection p sections s0
      else legacyIE p slen s0

/-- The record with every field empty, as a fresh `UserAgent` has it. -/
def emptyUserAgent : UserAgent := ⟨str "", ⟨str "", str "", str "", str ""⟩⟩

/-- The names of section 0 that `detectBrowser` treats as special cases (lines 42-80). -/
def specialNames : List GoString :=
  [str "Opera", str "Chrome", str "WinHttp-Autoproxy-Service", str "Microsoft-WNS",
   str "Microsoft"]

/-- The section sequences on which the call writes all four fields of the record and the
flag: `Opera` followed by a second section, and the multi-section formats of at least
three sections whose section 1 is `AppleWebKit`, `Gecko`, or `like` before `Gecko`. -/
def overwritesAll : List Section → Bool
  | s0 :: s1 :: rest =>
    if s0.name = str "Opera" then true
    else if s0.name ∈ specialNames then false
    else
      match rest with
      | s2 :: _ =>
        s1.name = str "AppleWebKit" || s1.name = str "Gecko" ||
          (s1.name = str "like" && s2.name = str "Gecko")
      | [] => false
  | _ => false

/-- The section sequence without its comment tokens: the names and versions only. -/
def eraseComments (sections : List Section) : List Section :=
  sections.map (fun s => ⟨s.name, s.version, []⟩)

/-- The Internet Explorer 11 format: at least three sections, section 0 no special case,
section 1 named `like` and section 2 named `Gecko`. -/
def isIE11Format : List Section → Bool
  | s0 :: s1 :: s2 :: _ =>
    decide (s0.name ∉ specialNames) && decide (s1.name = str "like") &&
      decide (s2.name = str "Gecko")
  | _ => false

/-- The code points with the Unicode property White_Space, the ones for which
`unicode.IsSpace` holds: the ASCII controls TAB to CR, the space, NEL, the no-break
space, the Ogham space mark, the spaces U+2000 to U+200A, the line and paragraph
separators, the narrow no-break space, the medium mathematical space and the ideographic
space. -/
def whiteSpacePoints : List Nat :=
  [0x09, 0x0A, 0x0B, 0x0C, 0x0D, 0x20, 0x85, 0xA0, 0x1680,
   0x2000, 0x2001, 0x2002, 0x2003, 0x2004, 0x2005, 0x2006, 0x2007, 0x2008, 0x2009, 0x200A,
   0x2028, 0x2029, 0x202F, 0x205F, 0x3000]

/-- The byte sequences that are one white-space character in UTF-8. -/
def whiteSpaceChars : List GoString :=
  whiteSpacePoints.map (fun n => utf8EncodeChar (Char.ofNat n))

/-- The string `l` consists of white-space characters only. -/
def WhiteSpaceRun (l : GoString) : Prop :=
  ∃ cs : List GoString, (∀ c ∈ cs, c ∈ whiteSpaceChars) ∧ l = cs.flatten

/-- The string `s` begins with a white-space character. -/
def startsWithSpace (s : GoString) : Bool :=
  whiteSpaceChars.any (fun c => c.isPrefixOf s)

/-- The string `s` ends with a white-space character. -/
def endsWithSpace (s : GoString) : Bool :=
  whiteSpaceChars.any (fun c => c.isSuffixOf s)

/-- What it is for `v` to be `s` with its surrounding white space trimmed: `s` is `v`
between two runs of white-space characters, and `v` neither begins nor ends with a
white-space character. -/
def IsTrimmed (s v : GoString) : Prop :=
  (∃ l r, s = l ++ v ++ r ∧ WhiteSpaceRun l ∧ WhiteSpaceRun r) ∧
    startsWithSpace v = false ∧ endsWithSpace v = false

/-! ## Auxiliary facts -/

theorem index_zero_cons {α : Type} (x : α) (xs : List α) : index (x :: xs) 0 = .ok x := by
  simp [index]

theorem index_one_cons {α : Type} (x y : α) (xs : List α) :
    index (x :: y :: xs) 1 = .ok y := by
  simp [index]

theorem index_two_cons {α : Type} (x y z : α) (xs : List α) :
    index (x :: y :: z :: xs) 2 = .ok z := by
  simp [index]

theorem index_four_cons {α : Type} (a b c d e : α) (xs : List α) :
    index (a :: b :: c :: d :: e :: xs) 4 = .ok e := by
  simp [index]

theorem index_last {α : Type} (xs : List α) (h : xs ≠ []) :
    index xs (xs.length - 1) = .ok (xs.getLast h) := by
  have hlt : xs.length - 1 < xs.length := by
    have := List.length_pos.mpr h
    omega
  simp [index, List.getLast_eq_getElem, List.getElem?_eq_getElem hlt]

/-- For a section 0 that is no special case, the call sets the compatibility flag and
goes on to the multi-section format or to the legacy Internet Explorer format. -/
theorem detectBrowser_general (p : UserAgent) (s0 : Section) (rest : List Section)
    (h0 : s0.name ∉ specialNames) :
    detectBrowser p (s0 :: rest) =
      if rest ≠ [] then multiSection (setMozilla p s0.version) (s0 :: rest) s0
      else legacyIE (setMozilla p s0.version) 1 s0 := by
  simp only [specialNames, List.mem_cons, List.mem_singleton, List.not_mem_nil, or_false,
    not_or] at h0
  obtain ⟨h1, h2, h3, h4, h5⟩ := h0
  cases rest with
  | nil => simp [detectBrowser, index_zero_cons, h1, h2, h3, h4, h5]
  | cons s1 rest => simp [detectBrowser, index_zero_cons, h1, h2, h3, h4, h5]

/-- The multi-section path when section 1 is `AppleWebKit` and a third section exists:
the name of the last section selects the browser. -/
theorem multiSection_webkit (p : UserAgent) (s0 s1 s2 : Section) (rest : List Section)
    (h1 : s1.name = str "AppleWebKit") :
    multiSection p (s0 :: s1 :: s2 :: rest) s0 =
      let last := (s2 :: rest).getLast (List.cons_ne_nil s2 rest)
      if last.name = str "Edge" then
        done ⟨p.mozilla, ⟨str "EdgeHTML", str "", str "Edge", last.version⟩⟩
      else if last.name = str "OPR" then
        done ⟨p.mozilla, ⟨str "AppleWebKit", s1.version, str "Opera", last.version⟩⟩
      else if s2.name = str "Chrome" then
        done ⟨p.mozilla, ⟨str "AppleWebKit", s1.version, str "Chrome", s2.version⟩⟩
      else done ⟨p.mozilla, ⟨str "AppleWebKit", s1.version, str "Safari", s2.version⟩⟩ := by
  have hl := index_last (s0 :: s1 :: s2 :: rest) (List.cons_ne_nil _ _)
  have hg : (s0 :: s1 :: s2 :: rest).getLast (List.cons_ne_nil _ _)
      = (s2 :: rest).getLast (List.cons_ne_nil s2 rest) := by
    simp [List.getLast_cons]
  rw [hg] at hl
  simp only [multiSection, index_one_cons, index_two_cons, hl, h1]
  simp only [setMozilla, setEngine, setEngineVersion, setName, setVersion, done]
  simp

/-- The multi-section path when section 1 is `Gecko`, section 2 is `MRA` and a fifth
section exists: section 4 names the browser. -/
theorem multiSection_gecko_mra (p : UserAgent) (s0 s1 s2 s3 s4 : Section)
    (rest : List Section) (h1 : s1.name = str "Gecko") (h2 : s2.name = str "MRA") :
    multiSection p (s0 :: s1 :: s2 :: s3 :: s4 :: rest) s0 =
      done ⟨p.mozilla, ⟨str "Gecko", s1.version, s4.name, s4.version⟩⟩ := by
  have hne : ¬ str "Gecko" = str "AppleWebKit" := by decide
  simp [multiSection, index_one_cons, index_two_cons, index_four_cons, h1, h2, hne,
    setEngine, setEngineVersion, setName, setVersion]

/-- The multi-section path when section 1 is `Gecko` and either section 2 is not `MRA`
or there is no fifth section: section 2 names the browser. -/
theorem multiSection_gecko_plain (p : UserAgent) (s0 s1 s2 : Section)
    (rest : List Section) (h1 : s1.name = str "Gecko")
    (h2 : s2.name ≠ str "MRA" ∨ rest.length < 2) :
    multiSection p (s0 :: s1 :: s2 :: rest) s0 =
      done ⟨p.mozilla, ⟨str "Gecko", s1.version, s2.name, s2.version⟩⟩ := by
  have hne : ¬ str "Gecko" = str "AppleWebKit" := by decide
  have hg : ¬ (s2.name = str "MRA" ∧ rest.length + 1 + 1 + 1 > 4) := by
    rintro ⟨ha, hb⟩
    rcases h2 with h2 | h2
    · exact h2 ha
    · omega
  simp only [multiSection, index_one_cons, index_two_cons, h1, hne, List.length_cons]
  simp [hg, setEngine, setEngineVersion, setName, setVersion]

/-- The multi-section path of the Internet Explorer 11 format: the two loops over the
comment of section 0 run from a record whose every field has been written. -/
theorem multiSection_ie11 (p : UserAgent) (s0 s1 s2 : Section) (rest : List Section)
    (h1 : s1.name = str "like") (h2 : s2.name = str "Gecko") :
    multiSection p (s0 :: s1 :: s2 :: rest) s0 =
      match tridentLoop
        ⟨p.mozilla, ⟨str "Trident", s1.version, str "Internet Explorer", s2.version⟩⟩
        s0.comment with
      | ⟨p, some e⟩ => abort p e
      | ⟨p, none⟩ => rvLoop p s0.comment := by
  have hne1 : ¬ str "like" = str "AppleWebKit" := by decide
  have hne2 : ¬ str "like" = str "Gecko" := by decide
  simp [multiSection, index_one_cons, index_two_cons, h1, h2, hne1, hne2,
    setEngine, setEngineVersion, setName, setVersion]

/-- The result of `tridentRe.FindStringSubmatch` is nil or has two entries, the second
one being the run of digits and dots after `Trident/`. -/
theorem tridentRe_cases (c : GoString) :
    tridentRe_FindStringSubmatch c = [] ∨
      tridentRe_FindStringSubmatch c =
        [str "Trident/" ++ (c.drop 8).takeWhile isVersionByte,
          (c.drop 8).takeWhile isVersionByte] := by
  unfold tridentRe_FindStringSubmatch
  by_cases h1 : HasPrefix c (str "Trident/") = true
  · by_cases h2 : List.takeWhile isVersionByte (List.drop 8 c) = []
    · left
      simp only [h1, h2, if_true, ne_eq, not_true_eq_false, if_false]
    · right
      simp only [h1, if_true, ne_eq, h2, not_false_eq_true]
  · left
    simp only [h1, Bool.false_eq_true, if_false]

/-- The result of `rvRe.FindStringSubmatch` is nil or has two entries, the second one
being what follows `rv:`. -/
theorem rvRe_cases (c : GoString) :
    rvRe_FindStringSubmatch c = [] ∨ rvRe_FindStringSubmatch c = [c, c.drop 3] := by
  unfold rvRe_FindStringSubmatch
  by_cases h1 : HasPrefix c (str "rv:") = true
  · by_cases h2 : List.drop 3 c ≠ [] ∧ 0x0A ∉ List.drop 3 c
    · right
      simp only [h1, if_true]
      rw [if_pos h2]
    · left
      simp only [h1, if_true]
      rw [if_neg h2]
  · left
    simp only [h1, Bool.false_eq_true, if_false]

/-- The first loop of the Internet Explorer 11 format, in closed form. -/
theorem tridentLoop_eq (p : UserAgent) (cs : List GoString) :
    tridentLoop p cs =
      done (match cs.find? (fun c => decide (tridentRe_FindStringSubmatch c ≠ [])) with
        | none => p
        | some c => setEngineVersion p ((c.drop 8).takeWhile isVersionByte)) := by
  induction cs with
  | nil => simp [tridentLoop]
  | cons c cs ih =>
    rcases tridentRe_cases c with h | h
    · simp [tridentLoop, h, ih]
    · simp [tridentLoop, h, index]

/-- The second loop of the Internet Explorer 11 format, in closed form. -/
theorem rvLoop_eq (p : UserAgent) (cs : List GoString) :
    rvLoop p cs =
      done (match cs.find? (fun c => decide (rvRe_FindStringSubmatch c ≠ [])) with
        | none => setVersion p (str "")
        | some c => setVersion p (c.drop 3)) := by
  induction cs with
  | nil => simp [rvLoop]
  | cons c cs ih =>
    rcases rvRe_cases c with h | h
    · simp [rvLoop, h, ih]
    · simp [rvLoop, h, index]

theorem HasPrefix_length {s pre : GoString} (h : HasPrefix s pre = true) :
    pre.length ≤ s.length := by
  unfold HasPrefix at h
  exact (List.isPrefixOf_iff_prefix.mp h).length_le

theorem versionSwitch_engineVersion (p : UserAgent) :
    (versionSwitch p).browser.EngineVersion = p.browser.EngineVersion := by
  unfold versionSwitch
  split_ifs <;> simp [setVersion]

/-- The loop of the legacy Internet Explorer format, in closed form: it never panics. -/
theorem legacyLoop_eq (p : UserAgent) (cs : List GoString) :
    legacyLoop p cs =
      done (match cs.find? (fun v => HasPrefix v (str "Trident/")) with
        | none => p
        | some v =>
          versionSwitch
            (if p.browser.EngineVersion = str "" then setEngineVersion p (v.drop 8)
             else p)) := by
  induction cs with
  | nil => simp [legacyLoop]
  | cons c cs ih =>
    by_cases h : HasPrefix c (str "Trident/") = true
    · have hl : 8 ≤ c.length := HasPrefix_length h
      by_cases he : p.browser.EngineVersion = str ""
      · simp [legacyLoop, h, he, sliceFrom, hl]
      · simp [legacyLoop, h, he]
    · simp [legacyLoop, h, ih]

theorem legacyLoop_done (p : UserAgent) (cs : List GoString) :
    legacyLoop p cs = done (legacyLoop p cs).ua := by
  rw [legacyLoop_eq]
  rfl

/-- The legacy loop leaves an engine version that is already set as it is. -/
theorem legacyLoop_keeps (p : UserAgent) (cs : List GoString)
    (h : p.browser.EngineVersion ≠ str "") :
    (legacyLoop p cs).ua.browser.EngineVersion = p.browser.EngineVersion := by
  rw [legacyLoop_eq]
  cases cs.find? (fun v => HasPrefix v (str "Trident/")) with
  | none => rfl
  | some v => simp [done, versionSwitch_engineVersion, h]

/-- The legacy Internet Explorer path on a comment of at least two tokens, with the
loop taken as a whole. -/
theorem legacyIE_eq (p : UserAgent) (s0 : Section) (c0 c1 : GoString)
    (more : List GoString) (hc : s0.comment = c0 :: c1 :: more) :
    legacyIE p 1 s0 =
      if c0 = str "compatible" ∧
          (HasPrefix c1 (str "MSIE") = true ∨ HasPrefix c1 (str "IE") = true) then
        let q := (legacyLoop (setName (setEngine p (str "Trident"))
          (str "Internet Explorer")) s0.comment).ua
        if q.browser.Version = str "" then
          if 4 ≤ c1.length then done (setVersion q (TrimSpace (c1.drop 4)))
          else abort q (RuntimeError.sliceBoundsOutOfRange 4 c1.length)
        else done q
      else done p := by
  unfold legacyIE
  simp only [hc, List.length_cons, index_zero_cons, index_one_cons, done, sliceFrom]
  by_cases h0 : c0 = str "compatible"
  · by_cases h1 : HasPrefix c1 (str "MSIE") = true ∨ HasPrefix c1 (str "IE") = true
    · have hd := legacyLoop_done (setName (setEngine p (str "Trident"))
        (str "Internet Explorer")) (c0 :: c1 :: more)
      generalize legacyLoop (setName (setEngine p (str "Trident"))
        (str "Internet Explorer")) (c0 :: c1 :: more) = o at hd ⊢
      obtain ⟨q, e⟩ := o
      have he : e = none := by
        have := congrArg Outcome.panic hd
        simpa [done] using this
      subst he
      by_cases h4 : 4 ≤ c1.length
      · simp [h0, h1, h4]
      · simp [h0, h1, h4]
    · simp [h0, h1]
  · simp [h0]

/-- On one section, the legacy path leaves an engine version that is already set as it
is, whether or not the call completes. -/
theorem legacyIE_keeps (p : UserAgent) (s0 : Section)
    (h : p.browser.EngineVersion ≠ str "") :
    (legacyIE p 1 s0).ua.browser.EngineVersion = p.browser.EngineVersion := by
  rcases hc : s0.comment with _ | ⟨c0, _ | ⟨c1, more⟩⟩
  · simp [legacyIE, hc, done]
  · simp [legacyIE, hc, done]
  · rw [legacyIE_eq p s0 c0 c1 more hc]
    have hk := legacyLoop_keeps (setName (setEngine p (str "Trident"))
      (str "Internet Explorer")) s0.comment h
    generalize (legacyLoop (setName (setEngine p (str "Trident"))
      (str "Internet Explorer")) s0.comment).ua = q at hk ⊢
    have hk2 : q.browser.EngineVersion = p.browser.EngineVersion := hk
    by_cases h1 : c0 = str "compatible" ∧
        (HasPrefix c1 (str "MSIE") = true ∨ HasPrefix c1 (str "IE") = true)
    · by_cases h2 : q.browser.Version = str ""
      · by_cases h3 : 4 ≤ c1.length
        · simp [h1, h2, h3, done, setVersion, hk2]
        · simp [h1, h2, h3, abort, hk2]
      · simp [h1, h2, done, hk2]
    · simp [h1, done]

theorem overwritesAll_same (sections : List Section) (h : overwritesAll sections = true)
    (p q : UserAgent) : detectBrowser p sections = detectBrowser q sections := by
  match sections, h with
  | s0 :: s1 :: rest, h =>
    by_cases hO : s0.name = str "Opera"
    · simp [detectBrowser, index_zero_cons, index_one_cons, hO, setMozilla, setName,
        setVersion, setEngine, setEngineVersion]
    · by_cases hs : s0.name ∈ specialNames
      · simp [overwritesAll, hO, hs] at h
      · match rest, h with
        | [], h => simp [overwritesAll, hO, hs] at h
        | s2 :: rest, h =>
          simp only [overwritesAll, hO, hs, if_false, Bool.or_eq_true, Bool.and_eq_true,
            decide_eq_true_eq] at h
          rw [detectBrowser_general p s0 _ hs, detectBrowser_general q s0 _ hs,
            if_pos (List.cons_ne_nil _ _), if_pos (List.cons_ne_nil _ _)]
          rcases h with (h | h) | h
          · rw [multiSection_webkit _ s0 s1 s2 rest h, multiSection_webkit _ s0 s1 s2 rest h]
            rfl
          · by_cases hm : s2.name = str "MRA"
            · match rest with
              | [] =>
                rw [multiSection_gecko_plain _ s0 s1 s2 _ h (Or.inr (by simp)),
                  multiSection_gecko_plain _ s0 s1 s2 _ h (Or.inr (by simp))]
                rfl
              | [s3] =>
                rw [multiSection_gecko_plain _ s0 s1 s2 _ h (Or.inr (by simp)),
                  multiSection_gecko_plain _ s0 s1 s2 _ h (Or.inr (by simp))]
                rfl
              | s3 :: s4 :: rest =>
                rw [multiSection_gecko_mra _ s0 s1 s2 s3 s4 rest h hm,
                  multiSection_gecko_mra _ s0 s1 s2 s3 s4 rest h hm]
                rfl
            · rw [multiSection_gecko_plain _ s0 s1 s2 _ h (Or.inl hm),
                multiSection_gecko_plain _ s0 s1 s2 _ h (Or.inl hm)]
              rfl
          · rw [multiSection_ie11 _ s0 s1 s2 rest h.1 h.2,
              multiSection_ie11 _ s0 s1 s2 rest h.1 h.2]
            rfl

/-- On every other section sequence one field of the prior record survives the call:
the engine version (when it was set), the engine name or the browser name. -/
theorem survivor_of_not_overwritesAll (sections : List Section)
    (h : overwritesAll sections = false) :
    (∀ p : UserAgent, p.browser.EngineVersion ≠ str "" →
      (detectBrowser p sections).ua.browser.EngineVersion = p.browser.EngineVersion) ∨
    (∀ p : UserAgent,
      (detectBrowser p sections).ua.browser.Engine = p.browser.Engine) ∨
    (∀ p : UserAgent,
      (detectBrowser p sections).ua.browser.Name = p.browser.Name) := by
  match sections, h with
  | [], _ =>
    right; right; intro p
    simp [detectBrowser, index, abort]
  | s0 :: rest, h =>
    by_cases hO : s0.name = str "Opera"
    · match rest, h with
      | [], _ =>
        left; intro p _
        simp [detectBrowser, index_zero_cons, hO, done, setMozilla, setName, setVersion,
          setEngine]
      | s1 :: rest, h => simp [overwritesAll, hO] at h
    · by_cases hC : s0.name = str "Chrome"
      · left; intro p _
        match rest with
        | [] =>
          simp [detectBrowser, index_zero_cons, if_neg hO, if_pos hC, done, setMozilla,
            setName]
        | [s1] =>
          simp [detectBrowser, index_zero_cons, if_neg hO, if_pos hC, done, setMozilla,
            setName]
        | s1 :: s2 :: rest =>
          simp [detectBrowser, index_zero_cons, index_two_cons, if_neg hO, if_pos hC, done,
            setMozilla, setName, setVersion, setEngine]
      · by_cases hW : s0.name = str "WinHttp-Autoproxy-Service"
        · right; left; intro p
          simp [detectBrowser, index_zero_cons, if_neg hO, if_neg hC, if_pos hW, done,
            setMozilla, setName, setVersion]
        · by_cases hN : s0.name = str "Microsoft-WNS"
          · right; left; intro p
            simp [detectBrowser, index_zero_cons, if_neg hO, if_neg hC, if_neg hW,
              if_pos hN, done, setMozilla, setName]
          · by_cases hM : s0.name = str "Microsoft"
            · right; left; intro p
              match rest with
              | [] =>
                simp [detectBrowser, index_zero_cons, if_neg hO, if_neg hC, if_neg hW,
                  if_neg hN, if_pos hM, done]
              | s1 :: rest =>
                by_cases h1 : s1.name = str "NCSI"
                · simp [detectBrowser, index_zero_cons, index_one_cons, if_neg hO,
                    if_neg hC, if_neg hW, if_neg hN, if_pos hM, h1, done, setMozilla,
                    setName]
                · simp [detectBrowser, index_zero_cons, index_one_cons, if_neg hO,
                    if_neg hC, if_neg hW, if_neg hN, if_pos hM, h1, done]
            · have hs : s0.name ∉ specialNames := by
                simp [specialNames, hO, hC, hW, hN, hM]
              match rest, h with
              | [], _ =>
                left; intro p hp
                rw [detectBrowser_general p s0 _ hs, if_neg (by simp)]
                exact legacyIE_keeps (setMozilla p s0.version) s0 hp
              | [s1], _ =>
                right; right; intro p
                rw [detectBrowser_general p s0 _ hs, if_pos (List.cons_ne_nil _ _)]
                simp [multiSection, index_one_cons, done, setMozilla, setEngine,
                  setEngineVersion]
              | s1 :: s2 :: rest, h =>
                right; right; intro p
                simp only [overwritesAll, hO, hs, if_false, Bool.or_eq_false_iff,
                  Bool.and_eq_false_imp, decide_eq_false_iff_not, decide_eq_true_eq] at h
                obtain ⟨⟨hA, hG⟩, hL⟩ := h
                have hL2 : ¬ (s1.name = str "like" ∧ s2.name = str "Gecko") :=
                  fun hh => hL hh.1 hh.2
                rw [detectBrowser_general p s0 _ hs, if_pos (List.cons_ne_nil _ _)]
                simp [multiSection, index_one_cons, index_two_cons, hA, hG, hL2, done,
                  setMozilla, setEngine, setEngineVersion, setVersion]

theorem find?_first {α : Type} (f : α → Bool) (pre : List α) (x : α) (post : List α)
    (hpre : ∀ c ∈ pre, f c = false) (hx : f x = true) :
    (pre ++ x :: post).find? f = some x := by
  induction pre with
  | nil => simp [hx]
  | cons a pre ih =>
    have ha : f a = false := hpre a (List.mem_cons_self a pre)
    have ih2 := ih (fun c hc => hpre c (List.mem_cons_of_mem a hc))
    simp [List.find?_cons, ha, ih2]

theorem HasPrefix_iff (s pre : GoString) : HasPrefix s pre = true ↔ ∃ r, s = pre ++ r := by
  unfold HasPrefix
  rw [List.isPrefixOf_iff_prefix]
  constructor
  · rintro ⟨r, hr⟩
    exact ⟨r, hr.symm⟩
  · rintro ⟨r, hr⟩
    exact ⟨r, hr.symm⟩

/-- The Internet Explorer 11 format in closed form: the call returns; the first comment
token of section 0 that `tridentRe` matches gives the engine version, which is the
version of section 1 when there is none, and the first one that `rvRe` matches gives the
browser version, which is empty when there is none. -/
theorem detectBrowser_ie11 (p : UserAgent) (s0 s1 s2 : Section) (rest : List Section)
    (h0 : s0.name ∉ specialNames) (h1 : s1.name = str "like")
    (h2 : s2.name = str "Gecko") :
    detectBrowser p (s0 :: s1 :: s2 :: rest) =
      done ⟨s0.version, ⟨str "Trident",
        (match s0.comment.find? (fun c => decide (tridentRe_FindStringSubmatch c ≠ [])) with
          | none => s1.version
          | some c => (c.drop 8).takeWhile isVersionByte),
        str "Internet Explorer",
        (match s0.comment.find? (fun c => decide (rvRe_FindStringSubmatch c ≠ [])) with
          | none => str ""
          | some c => c.drop 3)⟩⟩ := by
  rw [detectBrowser_general p s0 _ h0, if_pos (List.cons_ne_nil _ _),
    multiSection_ie11 _ s0 s1 s2 rest h1 h2, tridentLoop_eq]
  simp only [done]
  rw [rvLoop_eq]
  cases s0.comment.find? (fun c => decide (tridentRe_FindStringSubmatch c ≠ [])) <;>
    cases s0.comment.find? (fun c => decide (rvRe_FindStringSubmatch c ≠ [])) <;>
    simp [done, setMozilla, setVersion, setEngineVersion]

theorem overwritesAll_returns (sections : List Section) (h : overwritesAll sections = true)
    (p : UserAgent) : (detectBrowser p sections).panic = none := by
  match sections, h with
  | s0 :: s1 :: rest, h =>
    by_cases hO : s0.name = str "Opera"
    · simp [detectBrowser, index_zero_cons, index_one_cons, hO, done]
    · by_cases hs : s0.name ∈ specialNames
      · simp [overwritesAll, hO, hs] at h
      · match rest, h with
        | [], h => simp [overwritesAll, hO, hs] at h
        | s2 :: rest, h =>
          simp only [overwritesAll, hO, hs, if_false, Bool.or_eq_true, Bool.and_eq_true,
            decide_eq_true_eq] at h
          rcases h with (h | h) | h
          · rw [detectBrowser_general p s0 _ hs, if_pos (List.cons_ne_nil _ _),
              multiSection_webkit _ s0 s1 s2 rest h]
            simp only []
            split_ifs <;> rfl
          · rw [detectBrowser_general p s0 _ hs, if_pos (List.cons_ne_nil _ _)]
            by_cases hm : s2.name = str "MRA"
            · match rest with
              | [] => rw [multiSection_gecko_plain _ s0 s1 s2 _ h (Or.inr (by simp))]; rfl
              | [s3] => rw [multiSection_gecko_plain _ s0 s1 s2 _ h (Or.inr (by simp))]; rfl
              | s3 :: s4 :: rest =>
                rw [multiSection_gecko_mra _ s0 s1 s2 s3 s4 rest h hm]; rfl
            · rw [multiSection_gecko_plain _ s0 s1 s2 _ h (Or.inl hm)]; rfl
          · rw [detectBrowser_ie11 p s0 s1 s2 rest hs h.1 h.2]; rfl

theorem rvRe_ne_nil_iff (c : GoString) :
    rvRe_FindStringSubmatch c ≠ [] ↔ ∃ r, c = str "rv:" ++ r ∧ r ≠ [] ∧ 0x0A ∉ r := by
  have hlen : (str "rv:").length = 3 := by decide
  unfold rvRe_FindStringSubmatch
  by_cases h1 : HasPrefix c (str "rv:") = true
  · obtain ⟨r, hr⟩ := (HasPrefix_iff c _).mp h1
    have hd : List.drop 3 c = r := by rw [hr]; exact List.drop_left' hlen
    simp only [h1, if_true, hd]
    constructor
    · intro hne
      by_cases h2 : r ≠ [] ∧ 0x0A ∉ r
      · exact ⟨r, hr, h2.1, h2.2⟩
      · rw [if_neg h2] at hne
        exact absurd rfl hne
    · rintro ⟨r2, hr2, hne, hnl⟩
      have : r2 = r := List.append_cancel_left (hr2.symm.trans hr)
      subst this
      rw [if_pos ⟨hne, hnl⟩]
      simp
  · simp only [h1, Bool.false_eq_true, if_false, ne_eq, not_true_eq_false, false_iff]
    rintro ⟨r, hr, _, _⟩
    exact h1 ((HasPrefix_iff c _).mpr ⟨r, hr⟩)

theorem tridentRe_ne_nil_iff (c : GoString) :
    tridentRe_FindStringSubmatch c ≠ [] ↔
      ∃ b t, c = str "Trident/" ++ b :: t ∧ isVersionByte b = true := by
  have hlen : (str "Trident/").length = 8 := by decide
  unfold tridentRe_FindStringSubmatch
  by_cases h1 : HasPrefix c (str "Trident/") = true
  · obtain ⟨r, hr⟩ := (HasPrefix_iff c _).mp h1
    have hd : List.drop 8 c = r := by rw [hr]; exact List.drop_left' hlen
    simp only [h1, if_true, hd]
    constructor
    · intro hne
      by_cases h2 : List.takeWhile isVersionByte r ≠ []
      · match r, h2 with
        | [], h2 => simp at h2
        | b :: t, h2 =>
          refine ⟨b, t, hr, ?_⟩
          by_contra hb
          simp [List.takeWhile_cons, hb] at h2
      · rw [if_neg h2] at hne
        exact absurd rfl hne
    · rintro ⟨b, t, hbt, hb⟩
      have : b :: t = r := List.append_cancel_left (hbt.symm.trans hr)
      subst this
      simp [List.takeWhile_cons, hb]
  · simp only [h1, Bool.false_eq_true, if_false, ne_eq, not_true_eq_false, false_iff]
    rintro ⟨b, t, hr, _⟩
    exact h1 ((HasPrefix_iff c _).mpr ⟨b :: t, hr⟩)

theorem takeWhile_run (f : Nat → Bool) (run tail : List Nat)
    (hrun : ∀ b ∈ run, f b = true) (htail : ∀ b ∈ tail.head?, f b = false) :
    (run ++ tail).takeWhile f = run := by
  induction run with
  | nil =>
    cases tail with
    | nil => rfl
    | cons b t =>
      have : f b = false := htail b (by simp)
      simp [List.takeWhile_cons, this]
  | cons a run ih =>
    have ha : f a = true := hrun a (List.mem_cons_self a run)
    have := ih (fun b hb => hrun b (List.mem_cons_of_mem a hb))
    simp [List.takeWhile_cons, ha, this]

theorem versionSwitch_engine (p : UserAgent) :
    (versionSwitch p).browser.Engine = p.browser.Engine := by
  unfold versionSwitch
  split_ifs <;> simp [setVersion]

theorem versionSwitch_name (p : UserAgent) :
    (versionSwitch p).browser.Name = p.browser.Name := by
  unfold versionSwitch
  split_ifs <;> simp [setVersion]

/-- The legacy loop writes neither the engine name nor the browser name. -/
theorem legacyLoop_engine_name (p : UserAgent) (cs : List GoString) :
    (legacyLoop p cs).ua.browser.Engine = p.browser.Engine ∧
      (legacyLoop p cs).ua.browser.Name = p.browser.Name := by
  rw [legacyLoop_eq]
  cases cs.find? (fun v => HasPrefix v (str "Trident/")) with
  | none => exact ⟨rfl, rfl⟩
  | some v =>
    simp only [done, versionSwitch_engine, versionSwitch_name]
    split_ifs <;> exact ⟨rfl, rfl⟩

/-- The legacy loop from a record without engine version, on a comment whose first
token starting with `Trident/` continues with `t`. -/
theorem legacyLoop_first_trident (p : UserAgent) (pre : List GoString) (t : GoString)
    (post : List GoString) (hp : p.browser.EngineVersion = str "")
    (hpre : ∀ c ∈ pre, HasPrefix c (str "Trident/") = false) :
    legacyLoop p (pre ++ (str "Trident/" ++ t) :: post) =
      done (versionSwitch (setEngineVersion p t)) := by
  have hx : HasPrefix (str "Trident/" ++ t) (str "Trident/") = true :=
    (HasPrefix_iff _ _).mpr ⟨t, rfl⟩
  have hlen : (str "Trident/").length = 8 := by decide
  rw [legacyLoop_eq, find?_first _ pre _ post hpre hx]
  simp only [hp, if_true, List.drop_left' hlen]

/-- The outcome of the legacy path once the loop has left the record `q`. -/
theorem legacyIE_of_loop (p : UserAgent) (s0 : Section) (c1 : GoString)
    (more : List GoString) (hc : s0.comment = str "compatible" :: c1 :: more)
    (h1 : HasPrefix c1 (str "MSIE") = true ∨ HasPrefix c1 (str "IE") = true)
    (q : UserAgent)
    (hq : legacyLoop (setName (setEngine p (str "Trident")) (str "Internet Explorer"))
      s0.comment = done q) :
    legacyIE p 1 s0 =
      if q.browser.Version = str "" then
        if 4 ≤ c1.length then done (setVersion q (TrimSpace (c1.drop 4)))
        else abort q (RuntimeError.sliceBoundsOutOfRange 4 c1.length)
      else done q := by
  rw [legacyIE_eq p s0 _ c1 more hc, if_pos ⟨rfl, h1⟩, hq]
  rfl

/-- The table of the `switch`: engine versions `4.0`, `5.0`, `6.0`, `7.0` give browser
versions `8.0`, `9.0`, `10.0`, `11.0`. -/
theorem versionSwitch_table (p : UserAgent) :
    (p.browser.EngineVersion = str "4.0" → (versionSwitch p).browser.Version = str "8.0") ∧
    (p.browser.EngineVersion = str "5.0" → (versionSwitch p).browser.Version = str "9.0") ∧
    (p.browser.EngineVersion = str "6.0" →
      (versionSwitch p).browser.Version = str "10.0") ∧
    (p.browser.EngineVersion = str "7.0" →
      (versionSwitch p).browser.Version = str "11.0") := by
  have d54 : ¬ str "5.0" = str "4.0" := by decide
  have d64 : ¬ str "6.0" = str "4.0" := by decide
  have d65 : ¬ str "6.0" = str "5.0" := by decide
  have d74 : ¬ str "7.0" = str "4.0" := by decide
  have d75 : ¬ str "7.0" = str "5.0" := by decide
  have d76 : ¬ str "7.0" = str "6.0" := by decide
  unfold versionSwitch
  refine ⟨?_, ?_, ?_, ?_⟩ <;> intro h <;> rw [h]
  · simp [setVersion]
  · simp [setVersion, d54]
  · simp [setVersion, d64, d65]
  · simp [setVersion, d74, d75, d76]

/-- The fallback of lines 170-172 after the loop has left the record `q`: it writes the
browser version only, it is skipped when the browser version is set, and it panics only
on a token `comment[1]` of fewer than 4 bytes. -/
theorem fallback_fields (q : UserAgent) (c1 : GoString) (o : Outcome)
    (ho : o = if q.browser.Version = str "" then
        if 4 ≤ c1.length then done (setVersion q (TrimSpace (c1.drop 4)))
        else abort q (RuntimeError.sliceBoundsOutOfRange 4 c1.length)
      else done q) :
    o.ua.browser.Engine = q.browser.Engine ∧ o.ua.browser.Name = q.browser.Name ∧
      o.ua.browser.EngineVersion = q.browser.EngineVersion ∧
      (q.browser.Version ≠ str "" → o = done q) ∧ (4 ≤ c1.length → o.panic = none) := by
  subst ho
  by_cases hv : q.browser.Version = str ""
  · by_cases h4 : 4 ≤ c1.length
    · simp [hv, h4, done, setVersion]
    · simp [hv, h4, abort]
  · simp [hv, done]

/-- On a non-empty section sequence the only panic of the call is the slice
`comment[1][4:]` of line 171, taken of a second comment token of fewer than 4 bytes in
the legacy Internet Explorer format. -/
theorem detectBrowser_panic_cases (p : UserAgent) (sections : List Section)
    (hne : sections ≠ []) :
    (detectBrowser p sections).panic = none ∨
      ∃ s0 c1 more, sections = [s0] ∧ s0.comment = str "compatible" :: c1 :: more ∧
        (HasPrefix c1 (str "MSIE") = true ∨ HasPrefix c1 (str "IE") = true) ∧
        c1.length < 4 ∧
        (detectBrowser p sections).panic =
          some (RuntimeError.sliceBoundsOutOfRange 4 c1.length) := by
  by_cases hall : overwritesAll sections = true
  · exact Or.inl (overwritesAll_returns sections hall p)
  have h : overwritesAll sections = false := by simpa using hall
  match sections, hne, h with
  | s0 :: rest, _, h =>
    by_cases hO : s0.name = str "Opera"
    · left
      match rest, h with
      | [], _ => simp [detectBrowser, index_zero_cons, hO, done]
      | s1 :: rest, h => simp [overwritesAll, hO] at h
    · by_cases hC : s0.name = str "Chrome"
      · left
        match rest with
        | [] => simp [detectBrowser, index_zero_cons, if_neg hO, if_pos hC, done]
        | [s1] => simp [detectBrowser, index_zero_cons, if_neg hO, if_pos hC, done]
        | s1 :: s2 :: rest =>
          simp [detectBrowser, index_zero_cons, index_two_cons, if_neg hO, if_pos hC, done]
      · by_cases hW : s0.name = str "WinHttp-Autoproxy-Service"
        · left
          simp [detectBrowser, index_zero_cons, if_neg hO, if_neg hC, if_pos hW, done]
        · by_cases hN : s0.name = str "Microsoft-WNS"
          · left
            simp [detectBrowser, index_zero_cons, if_neg hO, if_neg hC, if_neg hW,
              if_pos hN, done]
          · by_cases hM : s0.name = str "Microsoft"
            · left
              match rest with
              | [] =>
                simp [detectBrowser, index_zero_cons, if_neg hO, if_neg hC, if_neg hW,
                  if_neg hN, if_pos hM, done]
              | s1 :: rest =>
                by_cases h1 : s1.name = str "NCSI"
                · simp [detectBrowser, index_zero_cons, index_one_cons, if_neg hO,
                    if_neg hC, if_neg hW, if_neg hN, if_pos hM, h1, done]
                · simp [detectBrowser, index_zero_cons, index_one_cons, if_neg hO,
                    if_neg hC, if_neg hW, if_neg hN, if_pos hM, h1, done]
            · have hs : s0.name ∉ specialNames := by
                simp [specialNames, hO, hC, hW, hN, hM]
              match rest, h with
              | [], _ =>
                rw [detectBrowser_general p s0 _ hs, if_neg (by simp)]
                rcases hc : s0.comment with _ | ⟨c0, _ | ⟨c1, more⟩⟩
                · left; simp [legacyIE, hc, done]
                · left; simp [legacyIE, hc, done]
                · rw [legacyIE_eq _ s0 c0 c1 more hc]
                  by_cases hi : c0 = str "compatible" ∧
                      (HasPrefix c1 (str "MSIE") = true ∨ HasPrefix c1 (str "IE") = true)
                  · rw [if_pos hi]
                    obtain ⟨h0, h1⟩ := hi
                    subst h0
                    simp only []
                    split_ifs with hv h4
                    · exact Or.inl rfl
                    · exact Or.inr ⟨s0, c1, more, rfl, hc, h1, by omega, rfl⟩
                    · exact Or.inl rfl
                  · rw [if_neg hi]
                    exact Or.inl rfl
              | [s1], _ =>
                left
                rw [detectBrowser_general p s0 _ hs, if_pos (List.cons_ne_nil _ _)]
                simp [multiSection, index_one_cons, done]
              | s1 :: s2 :: rest, h =>
                left
                simp only [overwritesAll, hO, hs, if_false, Bool.or_eq_false_iff,
                  Bool.and_eq_false_imp, decide_eq_false_iff_not, decide_eq_true_eq] at h
                obtain ⟨⟨hA, hG⟩, hL⟩ := h
                have hL2 : ¬ (s1.name = str "like" ∧ s2.name = str "Gecko") :=
                  fun hh => hL hh.1 hh.2
                rw [detectBrowser_general p s0 _ hs, if_pos (List.cons_ne_nil _ _)]
                simp [multiSection, index_one_cons, index_two_cons, hA, hG, hL2, done]

/-- Section 0 named `Opera` (lines 44-52), in closed form. -/
theorem detectBrowser_opera (p : UserAgent) (s0 : Section) (rest : List Section)
    (h : s0.name = str "Opera") :
    detectBrowser p (s0 :: rest) =
      done ⟨str "", ⟨str "Presto",
        (match rest with
          | [] => p.browser.EngineVersion
          | s1 :: _ => s1.version),
        str "Opera", s0.version⟩⟩ := by
  cases rest with
  | nil =>
    simp [detectBrowser, index_zero_cons, if_pos h, setMozilla, setName, setVersion,
      setEngine]
  | cons s1 rest =>
    simp [detectBrowser, index_zero_cons, index_one_cons, if_pos h, setMozilla, setName,
      setVersion, setEngine, setEngineVersion]

/-- Section 0 named `Chrome` (lines 54-61), in closed form. -/
theorem detectBrowser_chrome (p : UserAgent) (s0 : Section) (rest : List Section)
    (h : s0.name = str "Chrome") :
    detectBrowser p (s0 :: rest) =
      done (match rest with
        | _ :: s2 :: _ =>
          ⟨str "5.0", ⟨str "AppleWebKit", p.browser.EngineVersion, str "Chrome", s2.name⟩⟩
        | _ =>
          ⟨str "5.0", ⟨p.browser.Engine, p.browser.EngineVersion, str "Chrome",
            p.browser.Version⟩⟩) := by
  have hO : ¬ s0.name = str "Opera" := by rw [h]; decide
  match rest with
  | [] =>
    simp [detectBrowser, index_zero_cons, if_neg hO, if_pos h, setMozilla, setName]
  | [s1] =>
    simp [detectBrowser, index_zero_cons, if_neg hO, if_pos h, setMozilla, setName]
  | s1 :: s2 :: rest =>
    simp [detectBrowser, index_zero_cons, index_two_cons, if_neg hO, if_pos h, setMozilla,
      setName, setVersion, setEngine]

/-- Section 0 named `WinHttp-Autoproxy-Service` (lines 63-67), in closed form. -/
theorem detectBrowser_winhttp (p : UserAgent) (s0 : Section) (rest : List Section)
    (h : s0.name = str "WinHttp-Autoproxy-Service") :
    detectBrowser p (s0 :: rest) =
      done ⟨str "", ⟨p.browser.Engine, p.browser.EngineVersion,
        str "WinHttpAutoproxyService", s0.version⟩⟩ := by
  have hO : ¬ s0.name = str "Opera" := by rw [h]; decide
  have hC : ¬ s0.name = str "Chrome" := by rw [h]; decide
  simp [detectBrowser, index_zero_cons, if_neg hO, if_neg hC, if_pos h, setMozilla,
    setName, setVersion]

/-- Section 0 named `Microsoft-WNS` (lines 69-72), in closed form. -/
theorem detectBrowser_wns (p : UserAgent) (s0 : Section) (rest : List Section)
    (h : s0.name = str "Microsoft-WNS") :
    detectBrowser p (s0 :: rest) =
      done ⟨str "", ⟨p.browser.Engine, p.browser.EngineVersion, str "WNS",
        p.browser.Version⟩⟩ := by
  have hO : ¬ s0.name = str "Opera" := by rw [h]; decide
  have hC : ¬ s0.name = str "Chrome" := by rw [h]; decide
  have hW : ¬ s0.name = str "WinHttp-Autoproxy-Service" := by rw [h]; decide
  simp [detectBrowser, index_zero_cons, if_neg hO, if_neg hC, if_neg hW, if_pos h,
    setMozilla, setName]

/-- Section 0 named `Microsoft` (lines 74-79), in closed form. -/
theorem detectBrowser_microsoft (p : UserAgent) (s0 : Section) (rest : List Section)
    (h : s0.name = str "Microsoft") :
    detectBrowser p (s0 :: rest) =
      done (match rest with
        | [] => p
        | s1 :: _ =>
          if s1.name = str "NCSI" then
            ⟨str "", ⟨p.browser.Engine, p.browser.EngineVersion, str "NCSI",
              p.browser.Version⟩⟩
          else p) := by
  have hO : ¬ s0.name = str "Opera" := by rw [h]; decide
  have hC : ¬ s0.name = str "Chrome" := by rw [h]; decide
  have hW : ¬ s0.name = str "WinHttp-Autoproxy-Service" := by rw [h]; decide
  have hN : ¬ s0.name = str "Microsoft-WNS" := by rw [h]; decide
  match rest with
  | [] =>
    simp [detectBrowser, index_zero_cons, if_neg hO, if_neg hC, if_neg hW, if_neg hN,
      if_pos h]
  | s1 :: rest =>
    by_cases h1 : s1.name = str "NCSI"
    · simp [detectBrowser, index_zero_cons, index_one_cons, if_neg hO, if_neg hC,
        if_neg hW, if_neg hN, if_pos h, h1, setMozilla, setName]
    · simp [detectBrowser, index_zero_cons, index_one_cons, if_neg hO, if_neg hC,
        if_neg hW, if_neg hN, if_pos h, h1]

/-- The multi-section path on exactly two sections: section 1 is the engine. -/
theorem multiSection_two (p : UserAgent) (s0 s1 : Section) :
    multiSection p [s0, s1] s0 =
      done ⟨p.mozilla, ⟨s1.name, s1.version, p.browser.Name, p.browser.Version⟩⟩ := by
  simp [multiSection, index_one_cons, setEngine, setEngineVersion]

/-- The multi-section path on three or more sections when section 1 selects none of the
known formats: section 1 is the engine and section 2 gives the browser version. -/
theorem multiSection_other (p : UserAgent) (s0 s1 s2 : Section) (rest : List Section)
    (hA : s1.name ≠ str "AppleWebKit") (hG : s1.name ≠ str "Gecko")
    (hL : ¬ (s1.name = str "like" ∧ s2.name = str "Gecko")) :
    multiSection p (s0 :: s1 :: s2 :: rest) s0 =
      done ⟨p.mozilla, ⟨s1.name, s1.version, p.browser.Name, s2.version⟩⟩ := by
  simp [multiSection, index_one_cons, index_two_cons, hA, hG, hL, setEngine,
    setEngineVersion, setVersion]

/-- The legacy path on a comment without the Internet Explorer markers writes nothing. -/
theorem legacyIE_unmarked (p : UserAgent) (s0 : Section)
    (h : ¬ ∃ c1 more, s0.comment = str "compatible" :: c1 :: more ∧
      (HasPrefix c1 (str "MSIE") = true ∨ HasPrefix c1 (str "IE") = true)) :
    legacyIE p 1 s0 = done p := by
  rcases hc : s0.comment with _ | ⟨c0, _ | ⟨c1, more⟩⟩
  · simp [legacyIE, hc]
  · simp [legacyIE, hc]
  · rw [legacyIE_eq p s0 c0 c1 more hc]
    have hn : ¬ (c0 = str "compatible" ∧
        (HasPrefix c1 (str "MSIE") = true ∨ HasPrefix c1 (str "IE") = true)) := by
      rintro ⟨ha, hb⟩
      exact h ⟨c1, more, by rw [hc, ha], hb⟩
    rw [if_neg hn]

/-- The `switch` writes nothing when the engine version is none of its four cases. -/
theorem versionSwitch_miss (p : UserAgent) (h4 : p.browser.EngineVersion ≠ str "4.0")
    (h5 : p.browser.EngineVersion ≠ str "5.0") (h6 : p.browser.EngineVersion ≠ str "6.0")
    (h7 : p.browser.EngineVersion ≠ str "7.0") : versionSwitch p = p := by
  simp [versionSwitch, h4, h5, h6, h7]

/-- The legacy loop writes nothing when no token starts with `Trident/`. -/
theorem legacyLoop_no_trident (p : UserAgent) (cs : List GoString)
    (h : ∀ c ∈ cs, HasPrefix c (str "Trident/") = false) : legacyLoop p cs = done p := by
  have hn : cs.find? (fun v => HasPrefix v (str "Trident/")) = none :=
    List.find?_eq_none.mpr (fun c hc => by simp [h c hc])
  rw [legacyLoop_eq, hn]

theorem isIE11Format_eraseComments (l : List Section) :
    isIE11Format (eraseComments l) = isIE11Format l := by
  match l with
  | [] => rfl
  | [_] => rfl
  | [_, _] => rfl
  | _ :: _ :: _ :: _ => rfl

/-- With two or more sections and outside the Internet Explorer 11 format the call reads
no comment token. -/
theorem detectBrowser_eraseComments (p : UserAgent) (l : List Section)
    (hl : 2 ≤ l.length) (hf : isIE11Format l = false) :
    detectBrowser p l = detectBrowser p (eraseComments l) := by
  match l, hl, hf with
  | s0 :: s1 :: rest, _, hf =>
    have he : eraseComments (s0 :: s1 :: rest) =
        (⟨s0.name, s0.version, []⟩ : Section) :: ⟨s1.name, s1.version, []⟩ ::
          eraseComments rest := rfl
    rw [he]
    by_cases hO : s0.name = str "Opera"
    · rw [detectBrowser_opera p s0 _ hO, detectBrowser_opera p ⟨s0.name, s0.version, []⟩ _ hO]
    · by_cases hC : s0.name = str "Chrome"
      · rw [detectBrowser_chrome p s0 _ hC,
          detectBrowser_chrome p ⟨s0.name, s0.version, []⟩ _ hC]
        cases rest <;> rfl
      · by_cases hW : s0.name = str "WinHttp-Autoproxy-Service"
        · rw [detectBrowser_winhttp p s0 _ hW,
            detectBrowser_winhttp p ⟨s0.name, s0.version, []⟩ _ hW]
        · by_cases hN : s0.name = str "Microsoft-WNS"
          · rw [detectBrowser_wns p s0 _ hN,
              detectBrowser_wns p ⟨s0.name, s0.version, []⟩ _ hN]
          · by_cases hM : s0.name = str "Microsoft"
            · rw [detectBrowser_microsoft p s0 _ hM,
                detectBrowser_microsoft p ⟨s0.name, s0.version, []⟩ _ hM]
            · have hs : s0.name ∉ specialNames := by
                simp [specialNames, hO, hC, hW, hN, hM]
              rw [detectBrowser_general p s0 _ hs,
                detectBrowser_general p ⟨s0.name, s0.version, []⟩ _ hs,
                if_pos (List.cons_ne_nil _ _), if_pos (List.cons_ne_nil _ _)]
              match rest, hf with
              | [], _ =>
                rw [multiSection_two]
                exact (multiSection_two _ ⟨s0.name, s0.version, []⟩
                  ⟨s1.name, s1.version, []⟩).symm
              | s2 :: rest, hf =>
                have he2 : eraseComments (s2 :: rest) =
                    (⟨s2.name, s2.version, []⟩ : Section) :: eraseComments rest := rfl
                rw [he2]
                by_cases hA : s1.name = str "AppleWebKit"
                · rw [multiSection_webkit _ s0 s1 s2 rest hA,
                    multiSection_webkit _ ⟨s0.name, s0.version, []⟩
                      ⟨s1.name, s1.version, []⟩ ⟨s2.name, s2.version, []⟩ _ hA]
                  have hlast : (((⟨s2.name, s2.version, []⟩ : Section) ::
                      eraseComments rest).getLast (List.cons_ne_nil _ _)) =
                      ⟨((s2 :: rest).getLast (List.cons_ne_nil _ _)).name,
                        ((s2 :: rest).getLast (List.cons_ne_nil _ _)).version, []⟩ := by
                    have := List.getLast_map (fun s : Section =>
                      (⟨s.name, s.version, []⟩ : Section)) (s2 :: rest)
                      (by simp)
                    simpa [eraseComments] using this
                  simp only [hlast]
                · by_cases hG : s1.name = str "Gecko"
                  · by_cases hm : s2.name = str "MRA"
                    · match rest with
                      | [] =>
                        rw [multiSection_gecko_plain _ s0 s1 s2 _ hG (Or.inr (by simp))]
                        exact (multiSection_gecko_plain _ ⟨s0.name, s0.version, []⟩
                          ⟨s1.name, s1.version, []⟩ ⟨s2.name, s2.version, []⟩ _ hG
                          (Or.inr (by simp [eraseComments]))).symm
                      | [s3] =>
                        rw [multiSection_gecko_plain _ s0 s1 s2 _ hG (Or.inr (by simp))]
                        exact (multiSection_gecko_plain _ ⟨s0.name, s0.version, []⟩
                          ⟨s1.name, s1.version, []⟩ ⟨s2.name, s2.version, []⟩ _ hG
                          (Or.inr (by simp [eraseComments]))).symm
                      | s3 :: s4 :: rest =>
                        rw [multiSection_gecko_mra _ s0 s1 s2 s3 s4 rest hG hm]
                        exact (multiSection_gecko_mra _ ⟨s0.name, s0.version, []⟩
                          ⟨s1.name, s1.version, []⟩ ⟨s2.name, s2.version, []⟩
                          ⟨s3.name, s3.version, []⟩ ⟨s4.name, s4.version, []⟩
                          (eraseComments rest) hG hm).symm
                    · rw [multiSection_gecko_plain _ s0 s1 s2 _ hG (Or.inl hm)]
                      exact (multiSection_gecko_plain _ ⟨s0.name, s0.version, []⟩
                        ⟨s1.name, s1.version, []⟩ ⟨s2.name, s2.version, []⟩ _ hG
                        (Or.inl hm)).symm
                  · have hL : ¬ (s1.name = str "like" ∧ s2.name = str "Gecko") := by
                      rintro ⟨ha, hb⟩
                      simp [isIE11Format, hs, ha, hb] at hf
                    rw [multiSection_other _ s0 s1 s2 rest hA hG hL]
                    exact (multiSection_other _ ⟨s0.name, s0.version, []⟩
                      ⟨s1.name, s1.version, []⟩ ⟨s2.name, s2.version, []⟩ _ hA hG hL).symm

theorem versionSwitch_mozilla (p : UserAgent) :
    (versionSwitch p).mozilla = p.mozilla := by
  unfold versionSwitch
  split_ifs <;> simp [setVersion]

/-- The `switch` depends on the engine version only: either it writes nothing, or it
writes one fixed non-empty browser version. -/
theorem versionSwitch_cases (p : UserAgent) :
    (∀ q : UserAgent, q.browser.EngineVersion = p.browser.EngineVersion →
      versionSwitch q = q) ∨
    (∃ v, v ≠ str "" ∧ ∀ q : UserAgent,
      q.browser.EngineVersion = p.browser.EngineVersion →
      versionSwitch q = setVersion q v) := by
  by_cases h4 : p.browser.EngineVersion = str "4.0"
  · refine Or.inr ⟨str "8.0", by decide, fun q hq => ?_⟩
    have e : q.browser.EngineVersion = str "4.0" := hq.trans h4
    unfold versionSwitch
    rw [if_pos e]
  · by_cases h5 : p.browser.EngineVersion = str "5.0"
    · refine Or.inr ⟨str "9.0", by decide, fun q hq => ?_⟩
      have e : q.browser.EngineVersion = str "5.0" := hq.trans h5
      have n4 : ¬ q.browser.EngineVersion = str "4.0" := by rw [e]; decide
      unfold versionSwitch
      rw [if_neg n4, if_pos e]
    · by_cases h6 : p.browser.EngineVersion = str "6.0"
      · refine Or.inr ⟨str "10.0", by decide, fun q hq => ?_⟩
        have e : q.browser.EngineVersion = str "6.0" := hq.trans h6
        have n4 : ¬ q.browser.EngineVersion = str "4.0" := by rw [e]; decide
        have n5 : ¬ q.browser.EngineVersion = str "5.0" := by rw [e]; decide
        unfold versionSwitch
        rw [if_neg n4, if_neg n5, if_pos e]
      · by_cases h7 : p.browser.EngineVersion = str "7.0"
        · refine Or.inr ⟨str "11.0", by decide, fun q hq => ?_⟩
          have e : q.browser.EngineVersion = str "7.0" := hq.trans h7
          have n4 : ¬ q.browser.EngineVersion = str "4.0" := by rw [e]; decide
          have n5 : ¬ q.browser.EngineVersion = str "5.0" := by rw [e]; decide
          have n6 : ¬ q.browser.EngineVersion = str "6.0" := by rw [e]; decide
          unfold versionSwitch
          rw [if_neg n4, if_neg n5, if_neg n6, if_pos e]
        · refine Or.inl (fun q hq => ?_)
          exact versionSwitch_miss q (hq ▸ h4) (hq ▸ h5) (hq ▸ h6) (hq ▸ h7)

/-- The `switch` applied twice is the `switch` applied once. -/
theorem versionSwitch_idem (p : UserAgent) :
    versionSwitch (versionSwitch p) = versionSwitch p := by
  rcases versionSwitch_cases p with h | ⟨v, _, h⟩
  · rw [h p rfl, h p rfl]
  · rw [h p rfl, h (setVersion p v) rfl]
    rfl

/-- When the `switch` leaves the browser version empty, it has written nothing, and it
writes nothing either once the browser version has been set. -/
theorem versionSwitch_of_empty (p : UserAgent)
    (h : (versionSwitch p).browser.Version = str "") (x : GoString) :
    versionSwitch p = p ∧ versionSwitch (setVersion p x) = setVersion p x := by
  rcases versionSwitch_cases p with hc | ⟨v, hv, hc⟩
  · exact ⟨hc p rfl, hc (setVersion p x) rfl⟩
  · rw [hc p rfl] at h
    exact absurd h hv

theorem setEngineVersion_self (p : UserAgent) (v : GoString)
    (h : p.browser.EngineVersion = v) : setEngineVersion p v = p := by
  obtain ⟨m, ⟨e, ev, n, ve⟩⟩ := p
  simp only [setEngineVersion] at *
  rw [h]

theorem setMozilla_self (p : UserAgent) (v : GoString) (h : p.mozilla = v) :
    setMozilla p v = p := by
  obtain ⟨m, b⟩ := p
  simp only [setMozilla] at *
  rw [h]

theorem setEngine_setName_self (p : UserAgent) (e n : GoString)
    (he : p.browser.Engine = e) (hn : p.browser.Name = n) :
    setName (setEngine p e) n = p := by
  obtain ⟨m, ⟨e0, ev, n0, ve⟩⟩ := p
  simp only [setName, setEngine] at *
  rw [he, hn]

/-- The record that the legacy loop leaves is a fixed point of the loop, and so is this
record with a browser version written by the fallback, when the loop left none. -/
theorem legacyLoop_fixed (p : UserAgent) (cs : List GoString) :
    legacyLoop (legacyLoop p cs).ua cs = done (legacyLoop p cs).ua ∧
    ((legacyLoop p cs).ua.browser.Version = str "" → ∀ x,
      legacyLoop (setVersion (legacyLoop p cs).ua x) cs =
        done (setVersion (legacyLoop p cs).ua x)) := by
  rw [legacyLoop_eq p cs]
  cases hf : cs.find? (fun v => HasPrefix v (str "Trident/")) with
  | none =>
    simp only [done]
    refine ⟨?_, fun _ x => ?_⟩
    · rw [legacyLoop_eq, hf]
      rfl
    · rw [legacyLoop_eq, hf]
      rfl
  | some v =>
    simp only [done]
    -- the record before the `switch` of the first call
    generalize hA : (if p.browser.EngineVersion = str "" then
      setEngineVersion p (List.drop 8 v) else p) = a
    have hev : a.browser.EngineVersion = str "" → List.drop 8 v = str "" := by
      intro h
      by_cases hp : p.browser.EngineVersion = str ""
      · rw [if_pos hp] at hA
        rw [← hA] at h
        exact h
      · rw [if_neg hp] at hA
        rw [← hA] at h
        exact absurd h hp
    have hinner : ∀ r : UserAgent, r.browser.EngineVersion = a.browser.EngineVersion →
        (if r.browser.EngineVersion = str "" then setEngineVersion r (List.drop 8 v)
          else r) = r := by
      intro r hr
      by_cases h : r.browser.EngineVersion = str ""
      · rw [if_pos h, hev (hr ▸ h)]
        exact setEngineVersion_self r _ h
      · rw [if_neg h]
    refine ⟨?_, fun hv x => ?_⟩
    · rw [legacyLoop_eq, hf]
      simp only []
      rw [hinner _ (versionSwitch_engineVersion a), versionSwitch_idem]
      rfl
    · obtain ⟨h1, h2⟩ := versionSwitch_of_empty a hv x
      rw [legacyLoop_eq, hf]
      simp only []
      rw [h1, hinner (setVersion a x) rfl, h2]
      rfl

/-- The legacy loop does not write the compatibility flag. -/
theorem legacyLoop_mozilla (p : UserAgent) (cs : List GoString) :
    (legacyLoop p cs).ua.mozilla = p.mozilla := by
  rw [legacyLoop_eq]
  cases cs.find? (fun v => HasPrefix v (str "Trident/")) with
  | none => rfl
  | some v =>
    simp only [done, versionSwitch_mozilla]
    split_ifs <;> rfl

/-- The legacy path does not write the compatibility flag. -/
theorem legacyIE_mozilla (p : UserAgent) (s0 : Section) :
    (legacyIE p 1 s0).ua.mozilla = p.mozilla := by
  by_cases hm : ∃ c1 more, s0.comment = str "compatible" :: c1 :: more ∧
      (HasPrefix c1 (str "MSIE") = true ∨ HasPrefix c1 (str "IE") = true)
  · obtain ⟨c1, more, hc, h1⟩ := hm
    have hq := legacyLoop_done (setName (setEngine p (str "Trident"))
      (str "Internet Explorer")) s0.comment
    have hz := legacyLoop_mozilla (setName (setEngine p (str "Trident"))
      (str "Internet Explorer")) s0.comment
    rw [legacyIE_of_loop p s0 c1 more hc h1 _ hq]
    split_ifs
    · exact hz
    · exact hz
    · exact hz
  · rw [legacyIE_unmarked p s0 hm]
    rfl

/-- The legacy path applied to the record it has left gives its own outcome again. -/
theorem legacyIE_idem (p : UserAgent) (s0 : Section) :
    legacyIE (legacyIE p 1 s0).ua 1 s0 = legacyIE p 1 s0 := by
  by_cases hm : ∃ c1 more, s0.comment = str "compatible" :: c1 :: more ∧
      (HasPrefix c1 (str "MSIE") = true ∨ HasPrefix c1 (str "IE") = true)
  · obtain ⟨c1, more, hc, h1⟩ := hm
    have hq := legacyLoop_done (setName (setEngine p (str "Trident"))
      (str "Internet Explorer")) s0.comment
    have hen := legacyLoop_engine_name (setName (setEngine p (str "Trident"))
      (str "Internet Explorer")) s0.comment
    obtain ⟨hfix, hfixv⟩ := legacyLoop_fixed (setName (setEngine p (str "Trident"))
      (str "Internet Explorer")) s0.comment
    rw [legacyIE_of_loop p s0 c1 more hc h1 _ hq]
    generalize (legacyLoop (setName (setEngine p (str "Trident"))
      (str "Internet Explorer")) s0.comment).ua = q at hen hfix hfixv
    have hE : q.browser.Engine = str "Trident" := hen.1
    have hN : q.browser.Name = str "Internet Explorer" := hen.2
    by_cases hv : q.browser.Version = str ""
    · by_cases h4 : 4 ≤ c1.length
      · rw [if_pos hv, if_pos h4]
        have hself : setName (setEngine (setVersion q (TrimSpace (c1.drop 4)))
            (str "Trident")) (str "Internet Explorer") =
            setVersion q (TrimSpace (c1.drop 4)) :=
          setEngine_setName_self _ _ _ hE hN
        have hl := hfixv hv (TrimSpace (c1.drop 4))
        rw [← hself] at hl
        simp only [done] at hl ⊢
        rw [legacyIE_of_loop _ s0 c1 more hc h1 _ hl, hself]
        by_cases hx : TrimSpace (c1.drop 4) = str ""
        · simp [setVersion, hx, h4, done]
        · simp [setVersion, hx, done]
      · rw [if_pos hv, if_neg h4]
        have hself : setName (setEngine q (str "Trident")) (str "Internet Explorer") = q :=
          setEngine_setName_self _ _ _ hE hN
        have hl := hfix
        rw [← hself] at hl
        simp only [abort] at hl ⊢
        rw [legacyIE_of_loop _ s0 c1 more hc h1 _ hl, hself, if_pos hv, if_neg h4]
        rfl
    · rw [if_neg hv]
      have hself : setName (setEngine q (str "Trident")) (str "Internet Explorer") = q :=
        setEngine_setName_self _ _ _ hE hN
      have hl := hfix
      rw [← hself] at hl
      simp only [done] at hl ⊢
      rw [legacyIE_of_loop _ s0 c1 more hc h1 _ hl, hself, if_neg hv]
      rfl
  · rw [legacyIE_unmarked p s0 hm]
    exact legacyIE_unmarked p s0 hm

/-- A second call on the record that a first call has left, with the same sections,
gives the outcome of the first call again. -/
theorem detectBrowser_idem (p : UserAgent) (sections : List Section) :
    detectBrowser (detectBrowser p sections).ua sections = detectBrowser p sections := by
  by_cases hall : overwritesAll sections = true
  · exact overwritesAll_same sections hall _ p
  have h : overwritesAll sections = false := by simpa using hall
  match sections, h with
  | [], _ => simp [detectBrowser, index, abort]
  | s0 :: rest, h =>
    by_cases hO : s0.name = str "Opera"
    · rw [detectBrowser_opera p s0 rest hO, detectBrowser_opera _ s0 rest hO]
      cases rest <;> rfl
    · by_cases hC : s0.name = str "Chrome"
      · rw [detectBrowser_chrome p s0 rest hC, detectBrowser_chrome _ s0 rest hC]
        match rest with
        | [] => rfl
        | [_] => rfl
        | _ :: _ :: _ => rfl
      · by_cases hW : s0.name = str "WinHttp-Autoproxy-Service"
        · rw [detectBrowser_winhttp p s0 rest hW, detectBrowser_winhttp _ s0 rest hW]
          rfl
        · by_cases hN : s0.name = str "Microsoft-WNS"
          · rw [detectBrowser_wns p s0 rest hN, detectBrowser_wns _ s0 rest hN]
            rfl
          · by_cases hM : s0.name = str "Microsoft"
            · rw [detectBrowser_microsoft p s0 rest hM, detectBrowser_microsoft _ s0 rest hM]
              match rest with
              | [] => rfl
              | s1 :: _ =>
                by_cases h1 : s1.name = str "NCSI"
                · simp [h1, done]
                · simp [h1, done]
            · have hs : s0.name ∉ specialNames := by
                simp [specialNames, hO, hC, hW, hN, hM]
              match rest, h with
              | [], _ =>
                have hg : ∀ q : UserAgent, detectBrowser q [s0] =
                    legacyIE (setMozilla q s0.version) 1 s0 := by
                  intro q
                  rw [detectBrowser_general q s0 [] hs]
                  simp
                rw [hg p, hg]
                have hz : (legacyIE (setMozilla p s0.version) 1 s0).ua.mozilla = s0.version :=
                  legacyIE_mozilla (setMozilla p s0.version) s0
                rw [setMozilla_self _ _ hz]
                exact legacyIE_idem _ s0
              | [s1], _ =>
                rw [detectBrowser_general p s0 _ hs, detectBrowser_general _ s0 _ hs,
                  if_pos (List.cons_ne_nil _ _), multiSection_two, multiSection_two]
                rfl
              | s1 :: s2 :: rest, h =>
                simp only [overwritesAll, hO, hs, if_false, Bool.or_eq_false_iff,
                  Bool.and_eq_false_imp, decide_eq_false_iff_not, decide_eq_true_eq] at h
                obtain ⟨⟨hA, hG⟩, hL⟩ := h
                have hL2 : ¬ (s1.name = str "like" ∧ s2.name = str "Gecko") :=
                  fun hh => hL hh.1 hh.2
                rw [detectBrowser_general p s0 _ hs, detectBrowser_general _ s0 _ hs,
                  if_pos (List.cons_ne_nil _ _),
                  multiSection_other _ s0 s1 s2 rest hA hG hL2,
                  multiSection_other _ s0 s1 s2 rest hA hG hL2]
                rfl

theorem spaceEncodings_eq : spaceEncodings = whiteSpaceChars := by decide

theorem leadingLen_eq_zero_iff (encs : List GoString) (hne : ∀ e ∈ encs, e ≠ [])
    (s : GoString) :
    leadingLen encs s = 0 ↔ ∀ e ∈ encs, e.isPrefixOf s = false := by
  unfold leadingLen
  cases h : encs.find? (fun e => e.isPrefixOf s) with
  | none =>
    simp only [true_iff]
    intro e he
    have := List.find?_eq_none.mp h e he
    exact Bool.eq_false_iff.mpr this
  | some e =>
    have hmem : e ∈ encs := List.mem_of_find?_eq_some h
    have hpre : e.isPrefixOf s = true :=
      @List.find?_some _ (fun e => e.isPrefixOf s) e encs h
    constructor
    · intro hl
      exact absurd (List.length_eq_zero.mp hl) (hne e hmem)
    · intro hall
      rw [hall e hmem] at hpre
      exact absurd hpre Bool.false_ne_true

theorem leadingLen_pos (encs : List GoString) (hne : ∀ e ∈ encs, e ≠ []) (s : GoString)
    (h : leadingLen encs s ≠ 0) :
    ∃ e ∈ encs, s = e ++ s.drop (leadingLen encs s) ∧ 0 < leadingLen encs s := by
  unfold leadingLen at h ⊢
  cases hf : encs.find? (fun e => e.isPrefixOf s) with
  | none => simp [hf] at h
  | some e =>
    have hmem : e ∈ encs := List.mem_of_find?_eq_some hf
    have hpre : e.isPrefixOf s = true :=
      @List.find?_some _ (fun e => e.isPrefixOf s) e encs hf
    obtain ⟨r, hr⟩ := List.isPrefixOf_iff_prefix.mp hpre
    refine ⟨e, hmem, ?_, ?_⟩
    · simp only []
      rw [← hr, List.drop_left]
    · simp only []
      exact List.length_pos.mpr (hne e hmem)

/-- What `trimLeading` does with enough fuel: it removes a run of members of `encs` and
stops at a string that begins with none. -/
theorem trimLeading_spec (encs : List GoString) (hne : ∀ e ∈ encs, e ≠ []) :
    ∀ (fuel : Nat) (s : GoString), s.length ≤ fuel →
      ∃ es : List GoString, (∀ e ∈ es, e ∈ encs) ∧
        s = es.flatten ++ trimLeading encs fuel s ∧
        leadingLen encs (trimLeading encs fuel s) = 0 := by
  intro fuel
  induction fuel with
  | zero =>
    intro s hs
    have hnil : s = [] := List.length_eq_zero.mp (Nat.le_zero.mp hs)
    subst hnil
    refine ⟨[], by simp, by simp [trimLeading], ?_⟩
    simp only [trimLeading]
    rw [leadingLen_eq_zero_iff encs hne]
    intro e he
    cases e with
    | nil => exact absurd rfl (hne [] he)
    | cons a e => rfl
  | succ fuel ih =>
    intro s hs
    by_cases h0 : leadingLen encs s = 0
    · refine ⟨[], by simp, ?_, ?_⟩
      · simp [trimLeading, h0]
      · simp only [trimLeading, h0, if_true]
    · obtain ⟨e, he, hsplit, hpos⟩ := leadingLen_pos encs hne s h0
      have hlen : (s.drop (leadingLen encs s)).length ≤ fuel := by
        rw [List.length_drop]
        omega
      obtain ⟨es, hes, hform, hstop⟩ := ih (s.drop (leadingLen encs s)) hlen
      refine ⟨e :: es, ?_, ?_, ?_⟩
      · intro x hx
        rcases List.mem_cons.mp hx with hx | hx
        · rw [hx]; exact he
        · exact hes x hx
      · simp only [trimLeading, h0, if_false, List.flatten_cons, List.append_assoc]
        rw [← hform]
        exact hsplit
      · simp only [trimLeading, h0, if_false]
        exact hstop

/-- The model of `strings.TrimSpace` trims the surrounding white space: it cuts a run of
white-space characters off each end and leaves a string that neither begins nor ends
with a white-space character. -/
theorem TrimSpace_isTrimmed (s : GoString) : IsTrimmed s (TrimSpace s) := by
  have hne1 : ∀ e ∈ spaceEncodings, e ≠ [] := by decide
  have hne2 : ∀ e ∈ spaceEncodings.map List.reverse, e ≠ [] := by decide
  obtain ⟨es, hes, hs, hstop⟩ :=
    trimLeading_spec spaceEncodings hne1 s.length s (Nat.le_refl _)
  have htrim : TrimSpace s = (trimLeading (spaceEncodings.map List.reverse)
      (trimLeading spaceEncodings s.length s).length
      (trimLeading spaceEncodings s.length s).reverse).reverse := rfl
  rw [htrim]
  generalize trimLeading spaceEncodings s.length s = t at hs hstop ⊢
  obtain ⟨es2, hes2, ht, hstop2⟩ :=
    trimLeading_spec (spaceEncodings.map List.reverse) hne2 t.length t.reverse (by simp)
  generalize trimLeading (spaceEncodings.map List.reverse) t.length t.reverse = u
    at ht hstop2 ⊢
  have ht2 : t = u.reverse ++ es2.flatten.reverse := by
    have := congrArg List.reverse ht
    simpa using this
  refine ⟨⟨es.flatten, es2.flatten.reverse, ?_, ⟨es, ?_, rfl⟩,
    ⟨(es2.map List.reverse).reverse, ?_, List.reverse_flatten es2⟩⟩, ?_, ?_⟩
  · rw [hs, ht2, List.append_assoc]
  · intro c hc
    rw [← spaceEncodings_eq]
    exact hes c hc
  · intro c hc
    rw [List.mem_reverse, List.mem_map] at hc
    obtain ⟨e2, he2, rfl⟩ := hc
    have hm := hes2 e2 he2
    rw [List.mem_map] at hm
    obtain ⟨e, he, rfl⟩ := hm
    rw [List.reverse_reverse, ← spaceEncodings_eq]
    exact he
  · unfold startsWithSpace
    rw [List.any_eq_false]
    intro c hc hpre
    have h1 : c <+: u.reverse := List.isPrefixOf_iff_prefix.mp hpre
    have h2 : c <+: t := by
      rw [ht2]
      exact h1.trans (List.prefix_append _ _)
    have h3 := (leadingLen_eq_zero_iff spaceEncodings hne1 t).mp hstop c
      (spaceEncodings_eq ▸ hc)
    rw [List.isPrefixOf_iff_prefix.mpr h2] at h3
    exact Bool.noConfusion h3
  · unfold endsWithSpace
    rw [List.any_eq_false]
    intro c hc hsuf
    have h1 : c <:+ u.reverse := List.isSuffixOf_iff_suffix.mp hsuf
    have h2 : c.reverse <+: u := by
      have := List.reverse_prefix.mpr h1
      rwa [List.reverse_reverse] at this
    have hc2 : c.reverse ∈ spaceEncodings.map List.reverse :=
      List.mem_map_of_mem _ (spaceEncodings_eq ▸ hc)
    have h3 := (leadingLen_eq_zero_iff (spaceEncodings.map List.reverse) hne2 u).mp hstop2
      c.reverse hc2
    rw [List.isPrefixOf_iff_prefix.mpr h2] at h3
    exact Bool.noConfusion h3

/-! ## The claims -/

/-- C1 (defect in the code): the one-section agent `Mozilla/4.0 (compatible; IE)`,
classified from a fresh record, does not complete: after `Engine` and `Name` have been
written, the slice `comment[1][4:]` of line 171 is taken of the 2-byte token `IE` and
the call panics with slice bounds out of range. -/
theorem C1_short_IE_token_panics :
    detectBrowser emptyUserAgent
        [⟨str "Mozilla", str "4.0", [str "compatible", str "IE"]⟩] =
      abort ⟨str "4.0", ⟨str "Trident", str "", str "Internet Explorer", str ""⟩⟩
        (RuntimeError.sliceBoundsOutOfRange 4 2) := by
  decide

/-- C2 (as the code behaves): on the empty section sequence the call performs no
validation; it is stopped by the index-out-of-range panic of the read of `sections[0]`
on line 42, before any write, so the identity record and the compatibility flag are
unchanged. -/
theorem C2_empty_sections_index_panic (p : UserAgent) :
    detectBrowser p [] = abort p (RuntimeError.indexOutOfRange 0 0) := by
  simp [detectBrowser, index]

/-- C2 (counterexample): the failure on the empty section sequence is exactly the
run-time panic of the unchecked access to section 0, hence no dedicated validation
error. -/
theorem C2_counterexample_unchecked_access :
    (detectBrowser emptyUserAgent []).panic = some (RuntimeError.indexOutOfRange 0 0) := by
  decide

/-- C3 (as the code behaves): the record and the flag left by the call are the same
from every two prior contents exactly for the section sequences on which all five are
written: section 0 named `Opera` with a second section present, or at least three
sections with section 0 no special case and section 1 named `AppleWebKit`, `Gecko`, or
`like` before a section 2 named `Gecko`; on these the call returns.  On every other
sequence, the empty one included, the outcome depends on the prior record, and one of
these holds of every prior record: its engine version is left as it was whenever it was
not empty, or its engine name is left as it was, or its browser name is left as it
was. -/
theorem C3_determined_iff_overwritesAll (sections : List Section) :
    ((∀ p q : UserAgent, (detectBrowser p sections).ua = (detectBrowser q sections).ua) ↔
      overwritesAll sections = true) ∧
    (overwritesAll sections = true →
      ∀ p : UserAgent, (detectBrowser p sections).panic = none) ∧
    (overwritesAll sections = false →
      (∀ p : UserAgent, p.browser.EngineVersion ≠ str "" →
        (detectBrowser p sections).ua.browser.EngineVersion = p.browser.EngineVersion) ∨
      (∀ p : UserAgent,
        (detectBrowser p sections).ua.browser.Engine = p.browser.Engine) ∨
      (∀ p : UserAgent,
        (detectBrowser p sections).ua.browser.Name = p.browser.Name)) := by
  refine ⟨⟨?_, ?_⟩, overwritesAll_returns sections,
    survivor_of_not_overwritesAll sections⟩
  · intro hall
    by_contra hne
    have hf : overwritesAll sections = false := by simpa using hne
    have e := hall ⟨str "", ⟨str "a", str "a", str "a", str "a"⟩⟩
      ⟨str "", ⟨str "b", str "b", str "b", str "b"⟩⟩
    rcases survivor_of_not_overwritesAll sections hf with h | h | h
    · have e2 := congrArg (fun u => u.browser.EngineVersion) e
      simp only [] at e2
      rw [h _ (by decide), h _ (by decide)] at e2
      revert e2
      decide
    · have e2 := congrArg (fun u => u.browser.Engine) e
      simp only [] at e2
      rw [h, h] at e2
      revert e2
      decide
    · have e2 := congrArg (fun u => u.browser.Name) e
      simp only [] at e2
      rw [h, h] at e2
      revert e2
      decide
  · intro h p q
    exact congrArg Outcome.ua (overwritesAll_same sections h p q)

/-- C3 (counterexample): on the single section `Mozilla/5.0` the browser name and
version of the prior record survive, so two prior records give two results. -/
theorem C3_counterexample_stale_fields :
    ¬ (∀ (p q : UserAgent) (sections : List Section), sections ≠ [] →
        (detectBrowser p sections).ua = (detectBrowser q sections).ua) := by
  intro h
  have e := h emptyUserAgent ⟨str "", ⟨str "", str "", str "Opera", str "9.80"⟩⟩
    [⟨str "Mozilla", str "5.0", []⟩] (by simp)
  revert e
  decide

/-- C3 (witness): on `Opera/9.80 Presto/2.12.388` a fresh record and a used one are
left with the same contents. -/
theorem C3_witness :
    (detectBrowser emptyUserAgent
        [⟨str "Opera", str "9.80", []⟩, ⟨str "Presto", str "2.12.388", []⟩]).ua =
      (detectBrowser ⟨str "5.0", ⟨str "Gecko", str "20100101", str "Firefox", str "20.0"⟩⟩
        [⟨str "Opera", str "9.80", []⟩, ⟨str "Presto", str "2.12.388", []⟩]).ua :=
  (C3_determined_iff_overwritesAll
    [⟨str "Opera", str "9.80", []⟩, ⟨str "Presto", str "2.12.388", []⟩]).1.2
    (by decide) _ _

/-- C4: with at least three sections, section 0 no special case, section 1 named
`AppleWebKit` and the last section named neither `Edge` nor `OPR`, the call returns with
engine `AppleWebKit`, the engine version of section 1, the browser version of section 2,
the compatibility flag of section 0, and the browser name `Chrome` when section 2 is
named `Chrome` and `Safari` otherwise. -/
theorem C4_webkit_chrome_or_safari (p : UserAgent) (s0 s1 s2 : Section)
    (rest : List Section) (h0 : s0.name ∉ specialNames)
    (h1 : s1.name = str "AppleWebKit")
    (hEdge : ((s0 :: s1 :: s2 :: rest).getLast (List.cons_ne_nil _ _)).name ≠ str "Edge")
    (hOPR : ((s0 :: s1 :: s2 :: rest).getLast (List.cons_ne_nil _ _)).name ≠ str "OPR") :
    detectBrowser p (s0 :: s1 :: s2 :: rest) =
      done ⟨s0.version, ⟨str "AppleWebKit", s1.version,
        if s2.name = str "Chrome" then str "Chrome" else str "Safari", s2.version⟩⟩ := by
  have hg : (s0 :: s1 :: s2 :: rest).getLast (List.cons_ne_nil _ _)
      = (s2 :: rest).getLast (List.cons_ne_nil s2 rest) := by
    simp [List.getLast_cons]
  rw [hg] at hEdge hOPR
  rw [detectBrowser_general p s0 _ h0, if_pos (List.cons_ne_nil _ _),
    multiSection_webkit _ s0 s1 s2 rest h1]
  simp only [hEdge, hOPR, if_false]
  split_ifs <;> simp [setMozilla]

/-- C4 (witness): `Mozilla/5.0 AppleWebKit/534 Version/5.1 Safari/534`. -/
theorem C4_witness :
    detectBrowser emptyUserAgent
        [⟨str "Mozilla", str "5.0", []⟩, ⟨str "AppleWebKit", str "534", []⟩,
         ⟨str "Version", str "5.1", []⟩, ⟨str "Safari", str "534", []⟩] =
      done ⟨str "5.0", ⟨str "AppleWebKit", str "534",
        if str "Version" = str "Chrome" then str "Chrome" else str "Safari", str "5.1"⟩⟩ :=
  C4_webkit_chrome_or_safari emptyUserAgent ⟨str "Mozilla", str "5.0", []⟩
    ⟨str "AppleWebKit", str "534", []⟩ ⟨str "Version", str "5.1", []⟩
    [⟨str "Safari", str "534", []⟩] (by decide) (by decide) (by decide) (by decide)

/-- C5 (as the code behaves): for `Mozilla/5.0 (any comment) AppleWebKit/537.36
Chrome/58.0.3029.110 Safari/537.36` the call returns with engine `AppleWebKit`
`537.36` and browser `Chrome`, whose version is the version of section 2,
`58.0.3029.110`; the compatibility flag is `5.0`. -/
theorem C5_chrome_58 (p : UserAgent) (comment : List GoString) :
    detectBrowser p
        [⟨str "Mozilla", str "5.0", comment⟩, ⟨str "AppleWebKit", str "537.36", []⟩,
         ⟨str "Chrome", str "58.0.3029.110", []⟩, ⟨str "Safari", str "537.36", []⟩] =
      done ⟨str "5.0",
        ⟨str "AppleWebKit", str "537.36", str "Chrome", str "58.0.3029.110"⟩⟩ := by
  have h0 : str "Mozilla" ∉ specialNames := by decide
  rw [detectBrowser_general p ⟨str "Mozilla", str "5.0", comment⟩ _ h0,
    if_pos (List.cons_ne_nil _ _), multiSection_webkit _ _ _ _ _ rfl]
  have hE : ¬ str "Safari" = str "Edge" := by decide
  have hO : ¬ str "Safari" = str "OPR" := by decide
  simp [hE, hO, setMozilla]

/-- C5 (counterexample): for that section sequence the browser version is not
`537.36`. -/
theorem C5_counterexample_version :
    (detectBrowser emptyUserAgent
        [⟨str "Mozilla", str "5.0", []⟩, ⟨str "AppleWebKit", str "537.36", []⟩,
         ⟨str "Chrome", str "58.0.3029.110", []⟩,
         ⟨str "Safari", str "537.36", []⟩]).ua.browser.Version ≠ str "537.36" := by
  decide

/-- C6: with at least three sections, section 0 no special case, section 1 named
`AppleWebKit` and the last section named `Edge`, whatever section 2 is named, the call
returns with browser `Edge`, the browser version of the last section, engine `EdgeHTML`,
an empty engine version and the compatibility flag of section 0. -/
theorem C6_edge (p : UserAgent) (s0 s1 s2 : Section) (rest : List Section)
    (h0 : s0.name ∉ specialNames) (h1 : s1.name = str "AppleWebKit")
    (hEdge : ((s0 :: s1 :: s2 :: rest).getLast (List.cons_ne_nil _ _)).name = str "Edge") :
    detectBrowser p (s0 :: s1 :: s2 :: rest) =
      done ⟨s0.version, ⟨str "EdgeHTML", str "", str "Edge",
        ((s0 :: s1 :: s2 :: rest).getLast (List.cons_ne_nil _ _)).version⟩⟩ := by
  have hg : (s0 :: s1 :: s2 :: rest).getLast (List.cons_ne_nil _ _)
      = (s2 :: rest).getLast (List.cons_ne_nil s2 rest) := by
    simp [List.getLast_cons]
  rw [hg] at hEdge
  rw [detectBrowser_general p s0 _ h0, if_pos (List.cons_ne_nil _ _),
    multiSection_webkit _ s0 s1 s2 rest h1, hg]
  simp [hEdge, setMozilla]

/-- C6 (witness): `Mozilla/5.0 AppleWebKit/537.36 Chrome/42.0 Safari/537.36 Edge/12.0`,
where section 2 is named `Chrome`. -/
theorem C6_witness :
    detectBrowser emptyUserAgent
        [⟨str "Mozilla", str "5.0", []⟩, ⟨str "AppleWebKit", str "537.36", []⟩,
         ⟨str "Chrome", str "42.0", []⟩, ⟨str "Safari", str "537.36", []⟩,
         ⟨str "Edge", str "12.0", []⟩] =
      done ⟨str "5.0", ⟨str "EdgeHTML", str "", str "Edge", str "12.0"⟩⟩ :=
  C6_edge emptyUserAgent ⟨str "Mozilla", str "5.0", []⟩
    ⟨str "AppleWebKit", str "537.36", []⟩ ⟨str "Chrome", str "42.0", []⟩
    [⟨str "Safari", str "537.36", []⟩, ⟨str "Edge", str "12.0", []⟩]
    (by decide) (by decide) (by decide)

/-- C7: with at least three sections, section 0 no special case, section 1 named
`AppleWebKit` and the last section named `OPR`, the call returns with browser `Opera`,
the browser version of the last section, and the engine kept as section 1 gave it:
`AppleWebKit` with the version of section 1. -/
theorem C7_opr (p : UserAgent) (s0 s1 s2 : Section) (rest : List Section)
    (h0 : s0.name ∉ specialNames) (h1 : s1.name = str "AppleWebKit")
    (hOPR : ((s0 :: s1 :: s2 :: rest).getLast (List.cons_ne_nil _ _)).name = str "OPR") :
    detectBrowser p (s0 :: s1 :: s2 :: rest) =
      done ⟨s0.version, ⟨str "AppleWebKit", s1.version, str "Opera",
        ((s0 :: s1 :: s2 :: rest).getLast (List.cons_ne_nil _ _)).version⟩⟩ := by
  have hg : (s0 :: s1 :: s2 :: rest).getLast (List.cons_ne_nil _ _)
      = (s2 :: rest).getLast (List.cons_ne_nil s2 rest) := by
    simp [List.getLast_cons]
  rw [hg] at hOPR
  have hne : ¬ str "OPR" = str "Edge" := by decide
  rw [detectBrowser_general p s0 _ h0, if_pos (List.cons_ne_nil _ _),
    multiSection_webkit _ s0 s1 s2 rest h1, hg]
  simp [hOPR, hne, setMozilla]

/-- C7 (witness): `Mozilla/5.0 AppleWebKit/537.36 Chrome/30.0 Safari/537.36 OPR/17.0`. -/
theorem C7_witness :
    detectBrowser emptyUserAgent
        [⟨str "Mozilla", str "5.0", []⟩, ⟨str "AppleWebKit", str "537.36", []⟩,
         ⟨str "Chrome", str "30.0", []⟩, ⟨str "Safari", str "537.36", []⟩,
         ⟨str "OPR", str "17.0", []⟩] =
      done ⟨str "5.0", ⟨str "AppleWebKit", str "537.36", str "Opera", str "17.0"⟩⟩ :=
  C7_opr emptyUserAgent ⟨str "Mozilla", str "5.0", []⟩
    ⟨str "AppleWebKit", str "537.36", []⟩ ⟨str "Chrome", str "30.0", []⟩
    [⟨str "Safari", str "537.36", []⟩, ⟨str "OPR", str "17.0", []⟩]
    (by decide) (by decide) (by decide)

/-- C8: with at least three sections, section 0 no special case and section 1 named
`Gecko`, the call returns (no section out of range is read) with engine `Gecko` and the
engine version of section 1; the browser name and version are those of section 4 when
section 2 is named `MRA` and there are at least five sections, and those of section 2 in
every other case, also when section 2 is named `MRA` and there are three or four
sections. -/
theorem C8_gecko (p : UserAgent) (s0 s1 s2 : Section) (rest : List Section)
    (h0 : s0.name ∉ specialNames) (h1 : s1.name = str "Gecko") :
    (∀ s3 s4 rest2, rest = s3 :: s4 :: rest2 → s2.name = str "MRA" →
      detectBrowser p (s0 :: s1 :: s2 :: rest) =
        done ⟨s0.version, ⟨str "Gecko", s1.version, s4.name, s4.version⟩⟩) ∧
    (s2.name ≠ str "MRA" ∨ rest.length < 2 →
      detectBrowser p (s0 :: s1 :: s2 :: rest) =
        done ⟨s0.version, ⟨str "Gecko", s1.version, s2.name, s2.version⟩⟩) := by
  rw [detectBrowser_general p s0 _ h0, if_pos (List.cons_ne_nil _ _)]
  constructor
  · intro s3 s4 rest2 hr h2
    subst hr
    rw [multiSection_gecko_mra _ s0 s1 s2 s3 s4 rest2 h1 h2]
    simp [setMozilla]
  · intro h2
    rw [multiSection_gecko_plain _ s0 s1 s2 rest h1 h2]
    simp [setMozilla]

/-- C8 (witness): the mail-reading-agent header
`Mozilla/5.0 Gecko/20101203 MRA 5.7 Firefox/3.6.13` is Firefox `3.6.13`, and the same
header cut after its fourth section is `MRA` with an empty version. -/
theorem C8_witness :
    detectBrowser emptyUserAgent
        [⟨str "Mozilla", str "5.0", []⟩, ⟨str "Gecko", str "20101203", []⟩,
         ⟨str "MRA", str "", []⟩, ⟨str "5.7", str "", []⟩,
         ⟨str "Firefox", str "3.6.13", []⟩] =
      done ⟨str "5.0", ⟨str "Gecko", str "20101203", str "Firefox", str "3.6.13"⟩⟩ ∧
    detectBrowser emptyUserAgent
        [⟨str "Mozilla", str "5.0", []⟩, ⟨str "Gecko", str "20101203", []⟩,
         ⟨str "MRA", str "", []⟩, ⟨str "5.7", str "", []⟩] =
      done ⟨str "5.0", ⟨str "Gecko", str "20101203", str "MRA", str ""⟩⟩ :=
  ⟨(C8_gecko emptyUserAgent ⟨str "Mozilla", str "5.0", []⟩
      ⟨str "Gecko", str "20101203", []⟩ ⟨str "MRA", str "", []⟩
      [⟨str "5.7", str "", []⟩, ⟨str "Firefox", str "3.6.13", []⟩]
      (by decide) (by decide)).1 _ _ _ rfl rfl,
   (C8_gecko emptyUserAgent ⟨str "Mozilla", str "5.0", []⟩
      ⟨str "Gecko", str "20101203", []⟩ ⟨str "MRA", str "", []⟩
      [⟨str "5.7", str "", []⟩] (by decide) (by decide)).2 (Or.inr (by decide))⟩

/-- C9: in the Internet Explorer 11 format (at least three sections, section 0 no
special case, section 1 named `like`, section 2 named `Gecko`) the call returns with
engine `Trident` and browser `Internet Explorer`.  The browser version is what follows
`rv:` in the first comment token of section 0 that is `rv:` followed by one or more
bytes without a line feed, and it is empty when there is no such token.  When a comment
token of section 0 starts with `Trident/` and a digit or dot, the engine version is the
longest run of digits and dots after `Trident/` in the first such token.  The comment
`Windows NT 10.0; WOW64; Trident/7.0; rv:11.0` gives `7.0` and `11.0`. -/
theorem C9_ie11 (p : UserAgent) (s0 s1 s2 : Section) (rest : List Section)
    (h0 : s0.name ∉ specialNames) (h1 : s1.name = str "like")
    (h2 : s2.name = str "Gecko") :
    (detectBrowser p (s0 :: s1 :: s2 :: rest)).panic = none ∧
    (detectBrowser p (s0 :: s1 :: s2 :: rest)).ua.browser.Engine = str "Trident" ∧
    (detectBrowser p (s0 :: s1 :: s2 :: rest)).ua.browser.Name =
      str "Internet Explorer" ∧
    (∀ pre r post, s0.comment = pre ++ (str "rv:" ++ r) :: post → r ≠ [] → 0x0A ∉ r →
      (∀ c ∈ pre, ¬ ∃ r2, c = str "rv:" ++ r2 ∧ r2 ≠ [] ∧ 0x0A ∉ r2) →
      (detectBrowser p (s0 :: s1 :: s2 :: rest)).ua.browser.Version = r) ∧
    ((∀ c ∈ s0.comment, ¬ ∃ r2, c = str "rv:" ++ r2 ∧ r2 ≠ [] ∧ 0x0A ∉ r2) →
      (detectBrowser p (s0 :: s1 :: s2 :: rest)).ua.browser.Version = str "") ∧
    (∀ pre run tail post, s0.comment = pre ++ (str "Trident/" ++ (run ++ tail)) :: post →
      run ≠ [] → (∀ b ∈ run, isVersionByte b = true) →
      (∀ b ∈ tail.head?, isVersionByte b = false) →
      (∀ c ∈ pre, ¬ ∃ b t, c = str "Trident/" ++ b :: t ∧ isVersionByte b = true) →
      (detectBrowser p (s0 :: s1 :: s2 :: rest)).ua.browser.EngineVersion = run) ∧
    (s0.comment = [str "Windows NT 10.0", str "WOW64", str "Trident/7.0", str "rv:11.0"] →
      (detectBrowser p (s0 :: s1 :: s2 :: rest)).ua.browser.EngineVersion = str "7.0" ∧
      (detectBrowser p (s0 :: s1 :: s2 :: rest)).ua.browser.Version = str "11.0") := by
  rw [detectBrowser_ie11 p s0 s1 s2 rest h0 h1 h2]
  refine ⟨rfl, rfl, rfl, ?_, ?_, ?_, ?_⟩
  · intro pre r post hc hne hnl hpre
    have hx : decide (rvRe_FindStringSubmatch (str "rv:" ++ r) ≠ []) = true :=
      decide_eq_true ((rvRe_ne_nil_iff _).mpr ⟨r, rfl, hne, hnl⟩)
    have hp : ∀ c ∈ pre, decide (rvRe_FindStringSubmatch c ≠ []) = false := fun c hcm =>
      decide_eq_false (fun hn => hpre c hcm ((rvRe_ne_nil_iff c).mp hn))
    have hlen : (str "rv:").length = 3 := by decide
    simp only [done, hc, find?_first _ pre _ post hp hx]
    exact List.drop_left' hlen
  · intro hall
    have hn : s0.comment.find? (fun c => decide (rvRe_FindStringSubmatch c ≠ [])) = none :=
      List.find?_eq_none.mpr (fun c hcm => by
        have := hall c hcm
        rw [← rvRe_ne_nil_iff] at this
        simpa using this)
    simp only [done, hn]
  · intro pre run tail post hc hne hrun htail hpre
    have hb : ∃ b t, str "Trident/" ++ (run ++ tail) = str "Trident/" ++ b :: t ∧
        isVersionByte b = true := by
      match run, hne, hrun with
      | b :: t, _, hrun => exact ⟨b, t ++ tail, rfl, hrun b (List.mem_cons_self b t)⟩
    have hx : decide (tridentRe_FindStringSubmatch (str "Trident/" ++ (run ++ tail)) ≠ [])
        = true := decide_eq_true ((tridentRe_ne_nil_iff _).mpr hb)
    have hp : ∀ c ∈ pre, decide (tridentRe_FindStringSubmatch c ≠ []) = false :=
      fun c hcm => decide_eq_false (fun hn => hpre c hcm ((tridentRe_ne_nil_iff c).mp hn))
    have hlen : (str "Trident/").length = 8 := by decide
    simp only [done, hc, find?_first _ pre _ post hp hx]
    rw [List.drop_left' hlen]
    exact takeWhile_run isVersionByte run tail hrun htail
  · intro hc
    have ht : List.find? (fun c => decide (tridentRe_FindStringSubmatch c ≠ []))
        [str "Windows NT 10.0", str "WOW64", str "Trident/7.0", str "rv:11.0"] =
        some (str "Trident/7.0") := by decide
    have hr : List.find? (fun c => decide (rvRe_FindStringSubmatch c ≠ []))
        [str "Windows NT 10.0", str "WOW64", str "Trident/7.0", str "rv:11.0"] =
        some (str "rv:11.0") := by decide
    simp only [done, hc, ht, hr]
    constructor <;> decide

/-- C9 (witness): `Mozilla/5.0 (Windows NT 10.0; WOW64; Trident/7.0; rv:11.0) like
Gecko`. -/
theorem C9_witness :
    (detectBrowser emptyUserAgent
        [⟨str "Mozilla", str "5.0",
          [str "Windows NT 10.0", str "WOW64", str "Trident/7.0", str "rv:11.0"]⟩,
         ⟨str "like", str "", []⟩, ⟨str "Gecko", str "", []⟩]).ua.browser.EngineVersion
      = str "7.0" ∧
    (detectBrowser emptyUserAgent
        [⟨str "Mozilla", str "5.0",
          [str "Windows NT 10.0", str "WOW64", str "Trident/7.0", str "rv:11.0"]⟩,
         ⟨str "like", str "", []⟩, ⟨str "Gecko", str "", []⟩]).ua.browser.Version
      = str "11.0" :=
  (C9_ie11 emptyUserAgent
    ⟨str "Mozilla", str "5.0",
      [str "Windows NT 10.0", str "WOW64", str "Trident/7.0", str "rv:11.0"]⟩
    ⟨str "like", str "", []⟩ ⟨str "Gecko", str "", []⟩ [] (by decide) (by decide)
    (by decide)).2.2.2.2.2.2 rfl

/-- C10: for one section that is no special case and whose comment starts with
`compatible` and a token starting with `MSIE` or `IE`, classified from an empty identity
record, the record is left with engine `Trident` and browser `Internet Explorer`; when
`t` is what follows `Trident/` in the first comment token starting with `Trident/`, the
engine version is `t`, and for `t` = `4.0`, `5.0`, `6.0`, `7.0` the call returns with
browser version `8.0`, `9.0`, `10.0`, `11.0`, whatever the `MSIE` token and later tokens
say.  The call also returns whenever the second comment token has at least 4 bytes.  The
comment `compatible; MSIE 7.0; Windows NT 6.0; Trident/4.0` gives `4.0` and `8.0`. -/
theorem C10_legacy_ie (p : UserAgent) (s0 : Section) (c1 : GoString)
    (more : List GoString) (hp : p.browser = ⟨str "", str "", str "", str ""⟩)
    (h0 : s0.name ∉ specialNames) (hc : s0.comment = str "compatible" :: c1 :: more)
    (h1 : HasPrefix c1 (str "MSIE") = true ∨ HasPrefix c1 (str "IE") = true) :
    (detectBrowser p [s0]).ua.browser.Engine = str "Trident" ∧
    (detectBrowser p [s0]).ua.browser.Name = str "Internet Explorer" ∧
    (∀ pre t post, s0.comment = pre ++ (str "Trident/" ++ t) :: post →
      (∀ c ∈ pre, HasPrefix c (str "Trident/") = false) →
      (detectBrowser p [s0]).ua.browser.EngineVersion = t ∧
      (t = str "4.0" →
        (detectBrowser p [s0]).ua.browser.Version = str "8.0" ∧
        (detectBrowser p [s0]).panic = none) ∧
      (t = str "5.0" →
        (detectBrowser p [s0]).ua.browser.Version = str "9.0" ∧
        (detectBrowser p [s0]).panic = none) ∧
      (t = str "6.0" →
        (detectBrowser p [s0]).ua.browser.Version = str "10.0" ∧
        (detectBrowser p [s0]).panic = none) ∧
      (t = str "7.0" →
        (detectBrowser p [s0]).ua.browser.Version = str "11.0" ∧
        (detectBrowser p [s0]).panic = none)) ∧
    (4 ≤ c1.length → (detectBrowser p [s0]).panic = none) ∧
    (s0.comment =
        [str "compatible", str "MSIE 7.0", str "Windows NT 6.0", str "Trident/4.0"] →
      (detectBrowser p [s0]).ua.browser.EngineVersion = str "4.0" ∧
      (detectBrowser p [s0]).ua.browser.Version = str "8.0") := by
  have hgen : detectBrowser p [s0] =
      legacyIE (setMozilla p s0.version) 1 s0 := by
    rw [detectBrowser_general p s0 [] h0]
    simp
  have hd := legacyLoop_done (setName (setEngine (setMozilla p s0.version)
    (str "Trident")) (str "Internet Explorer")) s0.comment
  have hen := legacyLoop_engine_name (setName (setEngine
    (setMozilla p s0.version) (str "Trident")) (str "Internet Explorer"))
    s0.comment
  have hform := legacyIE_of_loop (setMozilla p s0.version) s0 c1 more hc h1
    _ hd
  rw [← hgen] at hform
  obtain ⟨fE, fN, fV, fdone, fret⟩ := fallback_fields _ c1 _ hform
  have htri : ∀ pre t post, s0.comment = pre ++ (str "Trident/" ++ t) :: post →
      (∀ c ∈ pre, HasPrefix c (str "Trident/") = false) →
      (detectBrowser p [s0]).ua.browser.EngineVersion = t ∧
      (t = str "4.0" →
        (detectBrowser p [s0]).ua.browser.Version = str "8.0" ∧
        (detectBrowser p [s0]).panic = none) ∧
      (t = str "5.0" →
        (detectBrowser p [s0]).ua.browser.Version = str "9.0" ∧
        (detectBrowser p [s0]).panic = none) ∧
      (t = str "6.0" →
        (detectBrowser p [s0]).ua.browser.Version = str "10.0" ∧
        (detectBrowser p [s0]).panic = none) ∧
      (t = str "7.0" →
        (detectBrowser p [s0]).ua.browser.Version = str "11.0" ∧
        (detectBrowser p [s0]).panic = none) := by
    intro pre t post hct hpre
    have hl := legacyLoop_first_trident (setName (setEngine
      (setMozilla p s0.version) (str "Trident")) (str "Internet Explorer"))
      pre t post (by simp [setName, setEngine, setMozilla, hp]) hpre
    rw [← hct] at hl
    have hq := congrArg Outcome.ua hl
    simp only [done] at hq
    rw [hq] at fV fdone
    refine ⟨by rw [fV, versionSwitch_engineVersion]; rfl, ?_, ?_, ?_, ?_⟩
    · intro ht
      have hv := (versionSwitch_table (setEngineVersion (setName (setEngine
        (setMozilla p s0.version) (str "Trident"))
        (str "Internet Explorer")) t)).1 ht
      have hne : str "8.0" ≠ str "" := by decide
      rw [fdone (by rw [hv]; exact hne)]
      exact ⟨hv, rfl⟩
    · intro ht
      have hv := (versionSwitch_table (setEngineVersion (setName (setEngine
        (setMozilla p s0.version) (str "Trident"))
        (str "Internet Explorer")) t)).2.1 ht
      have hne : str "9.0" ≠ str "" := by decide
      rw [fdone (by rw [hv]; exact hne)]
      exact ⟨hv, rfl⟩
    · intro ht
      have hv := (versionSwitch_table (setEngineVersion (setName (setEngine
        (setMozilla p s0.version) (str "Trident"))
        (str "Internet Explorer")) t)).2.2.1 ht
      have hne : str "10.0" ≠ str "" := by decide
      rw [fdone (by rw [hv]; exact hne)]
      exact ⟨hv, rfl⟩
    · intro ht
      have hv := (versionSwitch_table (setEngineVersion (setName (setEngine
        (setMozilla p s0.version) (str "Trident"))
        (str "Internet Explorer")) t)).2.2.2 ht
      have hne : str "11.0" ≠ str "" := by decide
      rw [fdone (by rw [hv]; exact hne)]
      exact ⟨hv, rfl⟩
  refine ⟨by rw [fE, hen.1]; rfl, by rw [fN, hen.2]; rfl, htri, fret, ?_⟩
  intro hcc
  have := htri [str "compatible", str "MSIE 7.0", str "Windows NT 6.0"] (str "4.0") []
    (by rw [hcc]; decide) (by decide)
  exact ⟨this.1, (this.2.1 rfl).1⟩

/-- C10 (witness): `Mozilla/4.0 (compatible; MSIE 7.0; Windows NT 6.0; Trident/4.0)`. -/
theorem C10_witness :
    (detectBrowser emptyUserAgent
        [⟨str "Mozilla", str "4.0",
          [str "compatible", str "MSIE 7.0", str "Windows NT 6.0", str "Trident/4.0"]⟩]
      ).ua.browser.EngineVersion = str "4.0" ∧
    (detectBrowser emptyUserAgent
        [⟨str "Mozilla", str "4.0",
          [str "compatible", str "MSIE 7.0", str "Windows NT 6.0", str "Trident/4.0"]⟩]
      ).ua.browser.Version = str "8.0" :=
  (C10_legacy_ie emptyUserAgent
    ⟨str "Mozilla", str "4.0",
      [str "compatible", str "MSIE 7.0", str "Windows NT 6.0", str "Trident/4.0"]⟩
    (str "MSIE 7.0") [str "Windows NT 6.0", str "Trident/4.0"] rfl (by decide) rfl
    (Or.inl (by decide))).2.2.2.2 rfl

/-- C11 (as the code behaves): for one section in the legacy Internet Explorer format
whose second comment token has at least 4 bytes, the call from an empty identity record
returns with the browser version equal to that token without its first 4 bytes and with
the surrounding white space trimmed, both when no comment token starts with `Trident/`
(the engine version then stays empty) and when what follows `Trident/` in the first such
token is none of `4.0`, `5.0`, `6.0`, `7.0` (it is then the engine version).  Trimmed
means: the rest of the token is the browser version between two runs of white-space
characters, and the browser version neither begins nor ends with a white-space
character.  For `MSIE 6.0` the version is `6.0`. -/
theorem C11_msie_fallback (p : UserAgent) (s0 : Section) (c1 : GoString)
    (more : List GoString) (hp : p.browser = ⟨str "", str "", str "", str ""⟩)
    (h0 : s0.name ∉ specialNames) (hc : s0.comment = str "compatible" :: c1 :: more)
    (h1 : HasPrefix c1 (str "MSIE") = true ∨ HasPrefix c1 (str "IE") = true)
    (h4 : 4 ≤ c1.length) :
    ((∀ c ∈ s0.comment, HasPrefix c (str "Trident/") = false) →
      detectBrowser p [s0] =
        done ⟨s0.version, ⟨str "Trident", str "", str "Internet Explorer",
          TrimSpace (c1.drop 4)⟩⟩ ∧
      IsTrimmed (c1.drop 4) (detectBrowser p [s0]).ua.browser.Version) ∧
    (∀ pre t post, s0.comment = pre ++ (str "Trident/" ++ t) :: post →
      (∀ c ∈ pre, HasPrefix c (str "Trident/") = false) →
      t ≠ str "4.0" → t ≠ str "5.0" → t ≠ str "6.0" → t ≠ str "7.0" →
      detectBrowser p [s0] =
        done ⟨s0.version, ⟨str "Trident", t, str "Internet Explorer",
          TrimSpace (c1.drop 4)⟩⟩ ∧
      IsTrimmed (c1.drop 4) (detectBrowser p [s0]).ua.browser.Version) ∧
    TrimSpace ((str "MSIE 6.0").drop 4) = str "6.0" := by
  have hgen : detectBrowser p [s0] = legacyIE (setMozilla p s0.version) 1 s0 := by
    rw [detectBrowser_general p s0 [] h0]
    simp
  have hP : setName (setEngine (setMozilla p s0.version) (str "Trident"))
      (str "Internet Explorer") =
      ⟨s0.version, ⟨str "Trident", str "", str "Internet Explorer", str ""⟩⟩ := by
    simp [setName, setEngine, setMozilla, hp]
  have case1 : (∀ c ∈ s0.comment, HasPrefix c (str "Trident/") = false) →
      detectBrowser p [s0] =
        done ⟨s0.version, ⟨str "Trident", str "", str "Internet Explorer",
          TrimSpace (c1.drop 4)⟩⟩ := by
    intro hno
    have hq := legacyLoop_no_trident (setName (setEngine (setMozilla p s0.version)
      (str "Trident")) (str "Internet Explorer")) s0.comment hno
    rw [hgen, legacyIE_of_loop _ s0 c1 more hc h1 _ hq, hP]
    simp [h4, setVersion]
  have case2 : ∀ pre t post, s0.comment = pre ++ (str "Trident/" ++ t) :: post →
      (∀ c ∈ pre, HasPrefix c (str "Trident/") = false) →
      t ≠ str "4.0" → t ≠ str "5.0" → t ≠ str "6.0" → t ≠ str "7.0" →
      detectBrowser p [s0] =
        done ⟨s0.version, ⟨str "Trident", t, str "Internet Explorer",
          TrimSpace (c1.drop 4)⟩⟩ := by
    intro pre t post hct hpre t4 t5 t6 t7
    have hq := legacyLoop_first_trident (setName (setEngine (setMozilla p s0.version)
      (str "Trident")) (str "Internet Explorer")) pre t post
      (by simp [setName, setEngine, setMozilla, hp]) hpre
    rw [← hct, versionSwitch_miss (setEngineVersion (setName (setEngine
      (setMozilla p s0.version) (str "Trident")) (str "Internet Explorer")) t)
      t4 t5 t6 t7] at hq
    rw [hgen, legacyIE_of_loop _ s0 c1 more hc h1 _ hq, hP]
    simp [h4, setVersion, setEngineVersion]
  refine ⟨fun hno => ⟨case1 hno, ?_⟩,
    fun pre t post hct hpre t4 t5 t6 t7 => ⟨case2 pre t post hct hpre t4 t5 t6 t7, ?_⟩,
    by decide⟩
  · rw [case1 hno]
    exact TrimSpace_isTrimmed (c1.drop 4)
  · rw [case2 pre t post hct hpre t4 t5 t6 t7]
    exact TrimSpace_isTrimmed (c1.drop 4)

/-- C11 (witness): `Mozilla/4.0 (compatible; MSIE 6.0; Windows NT 5.1)` is Internet
Explorer `6.0`. -/
theorem C11_witness :
    detectBrowser emptyUserAgent
        [⟨str "Mozilla", str "4.0",
          [str "compatible", str "MSIE 6.0", str "Windows NT 5.1"]⟩] =
      done ⟨str "4.0", ⟨str "Trident", str "", str "Internet Explorer",
        TrimSpace ((str "MSIE 6.0").drop 4)⟩⟩ ∧
    TrimSpace ((str "MSIE 6.0").drop 4) = str "6.0" :=
  ⟨((C11_msie_fallback emptyUserAgent
      ⟨str "Mozilla", str "4.0", [str "compatible", str "MSIE 6.0", str "Windows NT 5.1"]⟩
      (str "MSIE 6.0") [str "Windows NT 5.1"] rfl (by decide) rfl (Or.inl (by decide))
      (by decide)).1 (by decide)).1,
   (C11_msie_fallback emptyUserAgent
      ⟨str "Mozilla", str "4.0", [str "compatible", str "MSIE 6.0", str "Windows NT 5.1"]⟩
      (str "MSIE 6.0") [str "Windows NT 5.1"] rfl (by decide) rfl (Or.inl (by decide))
      (by decide)).2.2⟩

/-- C11 (counterexample): the second comment token `IE`, U+2000, `x`, space has five
characters and starts with `IE`; without its first 4 characters it is a single space,
and the browser version that the call leaves (the bytes `80 78`, cut inside the
encoding of U+2000) is not that space trimmed. -/
theorem C11_counterexample_characters :
    4 ≤ ['I', 'E', Char.ofNat 0x2000, 'x', ' '].length ∧
    HasPrefix (str (String.mk ['I', 'E', Char.ofNat 0x2000, 'x', ' '])) (str "IE") = true ∧
    (detectBrowser emptyUserAgent
        [⟨str "Mozilla", str "4.0",
          [str "compatible", str (String.mk ['I', 'E', Char.ofNat 0x2000, 'x', ' '])]⟩]
      ).ua.browser.Version = [0x80, 0x78] ∧
    ¬ IsTrimmed (str (String.mk (['I', 'E', Char.ofNat 0x2000, 'x', ' '].drop 4)))
      (detectBrowser emptyUserAgent
        [⟨str "Mozilla", str "4.0",
          [str "compatible", str (String.mk ['I', 'E', Char.ofNat 0x2000, 'x', ' '])]⟩]
      ).ua.browser.Version := by
  have hv : (detectBrowser emptyUserAgent
      [⟨str "Mozilla", str "4.0",
        [str "compatible", str (String.mk ['I', 'E', Char.ofNat 0x2000, 'x', ' '])]⟩]
      ).ua.browser.Version = [0x80, 0x78] := by decide
  have hs : str (String.mk (['I', 'E', Char.ofNat 0x2000, 'x', ' '].drop 4)) = [0x20] := by
    decide
  refine ⟨by decide, by decide, hv, ?_⟩
  rw [hv, hs]
  rintro ⟨⟨l, r, h, _, _⟩, _, _⟩
  have hlen := congrArg List.length h
  simp only [List.length_append, List.length_cons, List.length_nil] at hlen
  omega

/-- C12: when section 0 is named `Opera`, the call from an empty identity record returns
with an empty compatibility flag, browser `Opera` with the version of section 0, engine
`Presto`, and the engine version of section 1 when there is a second section and an
empty one otherwise; two such sequences that agree on the version of section 0 and on
the version of section 1 (or both lack it) give the same result, whatever their other
sections and their comments are. -/
theorem C12_opera (p : UserAgent) (s0 : Section) (rest : List Section)
    (hp : p.browser = ⟨str "", str "", str "", str ""⟩) (h : s0.name = str "Opera") :
    detectBrowser p (s0 :: rest) =
      done ⟨str "", ⟨str "Presto",
        (match rest with
          | [] => str ""
          | s1 :: _ => s1.version),
        str "Opera", s0.version⟩⟩ ∧
    (∀ (t0 : Section) (rest2 : List Section), t0.name = str "Opera" →
      t0.version = s0.version →
      rest2.head?.map Section.version = rest.head?.map Section.version →
      detectBrowser p (t0 :: rest2) = detectBrowser p (s0 :: rest)) := by
  have hev : p.browser.EngineVersion = str "" := by rw [hp]
  constructor
  · rw [detectBrowser_opera p s0 rest h]
    cases rest <;> simp [hev]
  · intro t0 rest2 ht hv hr
    rw [detectBrowser_opera p s0 rest h, detectBrowser_opera p t0 rest2 ht, hv]
    cases rest <;> cases rest2 <;> simp_all

/-- C12 (witness): `Opera/9.80 Presto/2.12.388` is Opera 9.80 on Presto 2.12.388 with an
empty compatibility flag. -/
theorem C12_witness :
    detectBrowser emptyUserAgent
        [⟨str "Opera", str "9.80", []⟩, ⟨str "Presto", str "2.12.388", []⟩] =
      done ⟨str "", ⟨str "Presto", str "2.12.388", str "Opera", str "9.80"⟩⟩ :=
  (C12_opera emptyUserAgent ⟨str "Opera", str "9.80", []⟩
    [⟨str "Presto", str "2.12.388", []⟩] rfl rfl).1

/-- C13: when section 0 is named `Chrome`, the call from an empty identity record returns
with the compatibility flag `5.0`, browser `Chrome` and an empty engine version; with
three or more sections the browser version is the name of section 2 and the engine is
`AppleWebKit`, with fewer sections both stay empty. -/
theorem C13_chrome (p : UserAgent) (s0 : Section) (rest : List Section)
    (hp : p.browser = ⟨str "", str "", str "", str ""⟩) (h : s0.name = str "Chrome") :
    (∀ s1 s2 rest2, rest = s1 :: s2 :: rest2 →
      detectBrowser p (s0 :: rest) =
        done ⟨str "5.0", ⟨str "AppleWebKit", str "", str "Chrome", s2.name⟩⟩) ∧
    (rest.length < 2 →
      detectBrowser p (s0 :: rest) =
        done ⟨str "5.0", ⟨str "", str "", str "Chrome", str ""⟩⟩) := by
  rw [detectBrowser_chrome p s0 rest h, hp]
  constructor
  · intro s1 s2 rest2 hr
    subst hr
    rfl
  · intro hl
    match rest, hl with
    | [], _ => rfl
    | [s1], _ => rfl

/-- C13 (witness): `Chrome/5.0 AppleWebKit/537 58.0.3029/1` takes its browser version
from the name of section 2, and `Chrome/58.0 Safari/537` leaves version and engine
empty. -/
theorem C13_witness :
    detectBrowser emptyUserAgent
        [⟨str "Chrome", str "5.0", []⟩, ⟨str "AppleWebKit", str "537", []⟩,
         ⟨str "58.0.3029", str "1", []⟩] =
      done ⟨str "5.0", ⟨str "AppleWebKit", str "", str "Chrome", str "58.0.3029"⟩⟩ ∧
    detectBrowser emptyUserAgent
        [⟨str "Chrome", str "58.0", []⟩, ⟨str "Safari", str "537", []⟩] =
      done ⟨str "5.0", ⟨str "", str "", str "Chrome", str ""⟩⟩ :=
  ⟨(C13_chrome emptyUserAgent ⟨str "Chrome", str "5.0", []⟩
      [⟨str "AppleWebKit", str "537", []⟩, ⟨str "58.0.3029", str "1", []⟩] rfl rfl).1
      _ _ _ rfl,
   (C13_chrome emptyUserAgent ⟨str "Chrome", str "58.0", []⟩
      [⟨str "Safari", str "537", []⟩] rfl rfl).2 (by decide)⟩

/-- C14 (as the code behaves): from an empty identity record, a section 0 named
`WinHttp-Autoproxy-Service` gives an empty compatibility flag, browser
`WinHttpAutoproxyService` and the browser version of section 0; a section 0 named
`Microsoft-WNS` gives an empty flag, browser `WNS` and an empty browser version; the
engine name and version stay empty in both. -/
theorem C14_windows_services (p : UserAgent) (s0 : Section) (rest : List Section)
    (hp : p.browser = ⟨str "", str "", str "", str ""⟩) :
    (s0.name = str "WinHttp-Autoproxy-Service" →
      detectBrowser p (s0 :: rest) =
        done ⟨str "", ⟨str "", str "", str "WinHttpAutoproxyService", s0.version⟩⟩) ∧
    (s0.name = str "Microsoft-WNS" →
      detectBrowser p (s0 :: rest) =
        done ⟨str "", ⟨str "", str "", str "WNS", str ""⟩⟩) := by
  constructor
  · intro h
    rw [detectBrowser_winhttp p s0 rest h, hp]
  · intro h
    rw [detectBrowser_wns p s0 rest h, hp]

/-- C14 (witness): `WinHttp-Autoproxy-Service/5.1` and `Microsoft-WNS/6.3`. -/
theorem C14_witness :
    detectBrowser emptyUserAgent [⟨str "WinHttp-Autoproxy-Service", str "5.1", []⟩] =
      done ⟨str "", ⟨str "", str "", str "WinHttpAutoproxyService", str "5.1"⟩⟩ ∧
    detectBrowser emptyUserAgent [⟨str "Microsoft-WNS", str "6.3", []⟩] =
      done ⟨str "", ⟨str "", str "", str "WNS", str ""⟩⟩ :=
  ⟨(C14_windows_services emptyUserAgent ⟨str "WinHttp-Autoproxy-Service", str "5.1", []⟩
      [] rfl).1 rfl,
   (C14_windows_services emptyUserAgent ⟨str "Microsoft-WNS", str "6.3", []⟩ [] rfl).2
      rfl⟩

/-- C14 (counterexample): for `WinHttp-Autoproxy-Service/5.1` the browser version does
not remain empty. -/
theorem C14_counterexample_version :
    (detectBrowser emptyUserAgent
        [⟨str "WinHttp-Autoproxy-Service", str "5.1", []⟩]).ua.browser.Version ≠ str "" := by
  decide

/-- C15: when section 0 is named `Microsoft`, a second section named `NCSI` makes the
call clear the compatibility flag and set the browser name to `NCSI`, the other three
fields staying as they were; with one section only, or a second section of another
name, the call returns with the record and the flag as they were. -/
theorem C15_microsoft (p : UserAgent) (s0 : Section) (rest : List Section)
    (h : s0.name = str "Microsoft") :
    (∀ s1 rest2, rest = s1 :: rest2 → s1.name = str "NCSI" →
      detectBrowser p (s0 :: rest) =
        done ⟨str "", ⟨p.browser.Engine, p.browser.EngineVersion, str "NCSI",
          p.browser.Version⟩⟩) ∧
    (rest = [] ∨ (∃ s1 rest2, rest = s1 :: rest2 ∧ s1.name ≠ str "NCSI") →
      detectBrowser p (s0 :: rest) = done p) := by
  rw [detectBrowser_microsoft p s0 rest h]
  constructor
  · intro s1 rest2 hr h1
    subst hr
    simp [h1]
  · rintro (hr | ⟨s1, rest2, hr, h1⟩)
    · subst hr
      rfl
    · subst hr
      simp [h1]

/-- C15 (witness): from a record that holds Firefox, `Microsoft NCSI` changes the flag
and the browser name only, and `Microsoft/1.0` alone changes nothing. -/
theorem C15_witness :
    detectBrowser ⟨str "5.0", ⟨str "Gecko", str "20100101", str "Firefox", str "20.0"⟩⟩
        [⟨str "Microsoft", str "", []⟩, ⟨str "NCSI", str "", []⟩] =
      done ⟨str "", ⟨str "Gecko", str "20100101", str "NCSI", str "20.0"⟩⟩ ∧
    detectBrowser ⟨str "5.0", ⟨str "Gecko", str "20100101", str "Firefox", str "20.0"⟩⟩
        [⟨str "Microsoft", str "1.0", []⟩] =
      done ⟨str "5.0", ⟨str "Gecko", str "20100101", str "Firefox", str "20.0"⟩⟩ :=
  ⟨(C15_microsoft _ ⟨str "Microsoft", str "", []⟩ [⟨str "NCSI", str "", []⟩] rfl).1
      _ _ rfl rfl,
   (C15_microsoft _ ⟨str "Microsoft", str "1.0", []⟩ [] rfl).2 (Or.inl rfl)⟩

/-- C16: for one section that is no special case and lacks the legacy Internet Explorer
markers (fewer than two comment tokens, or a first token other than `compatible`, or a
second token starting with neither `MSIE` nor `IE`), the call from an empty identity
record returns with the four fields empty and the compatibility flag of section 0. -/
theorem C16_unrecognized (p : UserAgent) (s0 : Section)
    (hp : p.browser = ⟨str "", str "", str "", str ""⟩) (h0 : s0.name ∉ specialNames)
    (hm : s0.comment.length < 2 ∨ s0.comment[0]? ≠ some (str "compatible") ∨
      ∀ c1, s0.comment[1]? = some c1 →
        HasPrefix c1 (str "MSIE") = false ∧ HasPrefix c1 (str "IE") = false) :
    detectBrowser p [s0] = done ⟨s0.version, ⟨str "", str "", str "", str ""⟩⟩ := by
  have hn : ¬ ∃ c1 more, s0.comment = str "compatible" :: c1 :: more ∧
      (HasPrefix c1 (str "MSIE") = true ∨ HasPrefix c1 (str "IE") = true) := by
    rintro ⟨c1, more, hc, hpre⟩
    rcases hm with hm | hm | hm
    · rw [hc] at hm
      simp only [List.length_cons] at hm
      omega
    · rw [hc] at hm
      simp at hm
    · have := hm c1 (by rw [hc]; simp)
      rcases hpre with hpre | hpre
      · rw [this.1] at hpre
        exact Bool.false_ne_true hpre
      · rw [this.2] at hpre
        exact Bool.false_ne_true hpre
  rw [detectBrowser_general p s0 [] h0, if_neg (by simp), legacyIE_unmarked _ s0 hn]
  simp [setMozilla, hp]

/-- C16 (witness): `Mozilla/5.0 (X11; Linux x86_64)` alone is not recognised. -/
theorem C16_witness :
    detectBrowser emptyUserAgent
        [⟨str "Mozilla", str "5.0", [str "X11", str "Linux x86_64"]⟩] =
      done ⟨str "5.0", ⟨str "", str "", str "", str ""⟩⟩ :=
  C16_unrecognized emptyUserAgent ⟨str "Mozilla", str "5.0", [str "X11", str "Linux x86_64"]⟩
    rfl (by decide) (Or.inr (Or.inl (by decide)))

/-- C17: two section sequences of two or more sections that differ in their comment
tokens only are classified alike from the same prior record, outside the Internet
Explorer 11 format (at least three sections, section 0 no special case, section 1 named
`like`, section 2 named `Gecko`), so the legacy Internet Explorer detection does not run
on them.  `Mozilla/4.0 (compatible; MSIE 7.0; Trident/4.0) X/1` from an empty record gets
the engine `X` and no browser name. -/
theorem C17_comments_unread (p : UserAgent) (sectionsA sectionsB : List Section)
    (hlen : 2 ≤ sectionsA.length)
    (hsame : eraseComments sectionsA = eraseComments sectionsB)
    (hfmt : isIE11Format sectionsA = false) :
    detectBrowser p sectionsA = detectBrowser p sectionsB ∧
    detectBrowser emptyUserAgent
        [⟨str "Mozilla", str "4.0", [str "compatible", str "MSIE 7.0", str "Trident/4.0"]⟩,
         ⟨str "X", str "1", []⟩] =
      done ⟨str "4.0", ⟨str "X", str "1", str "", str ""⟩⟩ := by
  refine ⟨?_, by decide⟩
  have hlenB : 2 ≤ sectionsB.length := by
    have := congrArg List.length hsame
    simp only [eraseComments, List.length_map] at this
    omega
  have hfmtB : isIE11Format sectionsB = false := by
    rw [← isIE11Format_eraseComments, ← hsame, isIE11Format_eraseComments]
    exact hfmt
  rw [detectBrowser_eraseComments p sectionsA hlen hfmt,
    detectBrowser_eraseComments p sectionsB hlenB hfmtB, hsame]

/-- C17 (witness): the legacy Internet Explorer comment in front of a second section
changes nothing. -/
theorem C17_witness :
    detectBrowser emptyUserAgent
        [⟨str "Mozilla", str "4.0", [str "compatible", str "MSIE 7.0", str "Trident/4.0"]⟩,
         ⟨str "X", str "1", []⟩] =
      detectBrowser emptyUserAgent
        [⟨str "Mozilla", str "4.0", []⟩, ⟨str "X", str "1", []⟩] :=
  (C17_comments_unread emptyUserAgent
    [⟨str "Mozilla", str "4.0", [str "compatible", str "MSIE 7.0", str "Trident/4.0"]⟩,
     ⟨str "X", str "1", []⟩]
    [⟨str "Mozilla", str "4.0", []⟩, ⟨str "X", str "1", []⟩]
    (by decide) (by decide) (by decide)).1

/-- C18: on a non-empty section sequence and from every prior record on which a call
returns, a second call with the same sections on the record left by the first returns
as well and leaves the four fields and the compatibility flag as the first call left
them. -/
theorem C18_idempotent (p : UserAgent) (sections : List Section)
    (_hne : sections ≠ []) (hret : (detectBrowser p sections).panic = none) :
    (detectBrowser (detectBrowser p sections).ua sections).panic = none ∧
    (detectBrowser (detectBrowser p sections).ua sections).ua =
      (detectBrowser p sections).ua := by
  rw [detectBrowser_idem p sections]
  exact ⟨hret, rfl⟩

/-- C18 (witness): in the legacy Internet Explorer format, from a record that holds the
engine version `5.0` and the browser version `7.0`, the first call leaves Internet
Explorer `9.0` on Trident `5.0`, and so does the second. -/
theorem C18_witness :
    (detectBrowser ⟨str "", ⟨str "", str "5.0", str "", str "7.0"⟩⟩
        [⟨str "Mozilla", str "4.0",
          [str "compatible", str "MSIE 7.0", str "Trident/4.0"]⟩]).ua =
      ⟨str "4.0", ⟨str "Trident", str "5.0", str "Internet Explorer", str "9.0"⟩⟩ ∧
    (detectBrowser
        (detectBrowser ⟨str "", ⟨str "", str "5.0", str "", str "7.0"⟩⟩
          [⟨str "Mozilla", str "4.0",
            [str "compatible", str "MSIE 7.0", str "Trident/4.0"]⟩]).ua
        [⟨str "Mozilla", str "4.0",
          [str "compatible", str "MSIE 7.0", str "Trident/4.0"]⟩]).ua =
      (detectBrowser ⟨str "", ⟨str "", str "5.0", str "", str "7.0"⟩⟩
        [⟨str "Mozilla", str "4.0",
          [str "compatible", str "MSIE 7.0", str "Trident/4.0"]⟩]).ua :=
  ⟨by decide,
   (C18_idempotent ⟨str "", ⟨str "", str "5.0", str "", str "7.0"⟩⟩
      [⟨str "Mozilla", str "4.0", [str "compatible", str "MSIE 7.0", str "Trident/4.0"]⟩]
      (by simp) (by decide)).2⟩

/-- C19: in the Internet Explorer 11 format (at least three sections, section 0 no
special case, section 1 named `like`, section 2 named `Gecko`), when no comment token of
section 0 starts with `Trident/` and a digit or dot, the call returns with engine
`Trident` and the engine version that section 1 carries. -/
theorem C19_ie11_without_trident (p : UserAgent) (s0 s1 s2 : Section)
    (rest : List Section) (h0 : s0.name ∉ specialNames) (h1 : s1.name = str "like")
    (h2 : s2.name = str "Gecko")
    (hno : ∀ c ∈ s0.comment,
      ¬ ∃ b t, c = str "Trident/" ++ b :: t ∧ isVersionByte b = true) :
    (detectBrowser p (s0 :: s1 :: s2 :: rest)).panic = none ∧
    (detectBrowser p (s0 :: s1 :: s2 :: rest)).ua.browser.Engine = str "Trident" ∧
    (detectBrowser p (s0 :: s1 :: s2 :: rest)).ua.browser.EngineVersion = s1.version := by
  have hn : s0.comment.find? (fun c => decide (tridentRe_FindStringSubmatch c ≠ []))
      = none :=
    List.find?_eq_none.mpr (fun c hcm => by
      have := hno c hcm
      rw [← tridentRe_ne_nil_iff] at this
      simpa using this)
  rw [detectBrowser_ie11 p s0 s1 s2 rest h0 h1 h2, hn]
  exact ⟨rfl, rfl, rfl⟩

/-- C19 (witness): `Mozilla/5.0 (Windows NT 6.3; rv:11.0) like/1.0 Gecko`, where the
comment has no Trident token and section 1 carries the version `1.0`. -/
theorem C19_witness :
    (detectBrowser emptyUserAgent
        [⟨str "Mozilla", str "5.0", [str "Windows NT 6.3", str "rv:11.0"]⟩,
         ⟨str "like", str "1.0", []⟩, ⟨str "Gecko", str "", []⟩]).ua.browser.EngineVersion
      = str "1.0" :=
  (C19_ie11_without_trident emptyUserAgent
    ⟨str "Mozilla", str "5.0", [str "Windows NT 6.3", str "rv:11.0"]⟩
    ⟨str "like", str "1.0", []⟩ ⟨str "Gecko", str "", []⟩ [] (by decide) rfl rfl
    (by
      intro c hc
      rw [← tridentRe_ne_nil_iff]
      revert c
      decide)).2.2

/-- C20: when section 0 is no special case and there are exactly two sections, or three
or more with section 1 named neither `AppleWebKit` nor `Gecko` and not `like` before a
section 2 named `Gecko`, the call from an empty identity record returns with the engine
name and version of section 1, an empty browser name, the browser version of section 2
when there is a third section and an empty one otherwise, and the compatibility flag of
section 0. -/
theorem C20_engine_only (p : UserAgent) (s0 s1 : Section)
    (hp : p.browser = ⟨str "", str "", str "", str ""⟩) (h0 : s0.name ∉ specialNames) :
    detectBrowser p [s0, s1] =
      done ⟨s0.version, ⟨s1.name, s1.version, str "", str ""⟩⟩ ∧
    (∀ (s2 : Section) (rest : List Section), s1.name ≠ str "AppleWebKit" →
      s1.name ≠ str "Gecko" → ¬ (s1.name = str "like" ∧ s2.name = str "Gecko") →
      detectBrowser p (s0 :: s1 :: s2 :: rest) =
        done ⟨s0.version, ⟨s1.name, s1.version, str "", s2.version⟩⟩) := by
  constructor
  · rw [detectBrowser_general p s0 _ h0, if_pos (List.cons_ne_nil _ _), multiSection_two]
    simp [setMozilla, hp]
  · intro s2 rest hA hG hL
    rw [detectBrowser_general p s0 _ h0, if_pos (List.cons_ne_nil _ _),
      multiSection_other _ s0 s1 s2 rest hA hG hL]
    simp [setMozilla, hp]

/-- C20 (witness): `Mozilla/5.0 Presto/2.12 Version/12.16` and `Mozilla/5.0 Presto/2.12`. -/
theorem C20_witness :
    detectBrowser emptyUserAgent
        [⟨str "Mozilla", str "5.0", []⟩, ⟨str "Presto", str "2.12", []⟩] =
      done ⟨str "5.0", ⟨str "Presto", str "2.12", str "", str ""⟩⟩ ∧
    detectBrowser emptyUserAgent
        [⟨str "Mozilla", str "5.0", []⟩, ⟨str "Presto", str "2.12", []⟩,
         ⟨str "Version", str "12.16", []⟩] =
      done ⟨str "5.0", ⟨str "Presto", str "2.12", str "", str "12.16"⟩⟩ :=
  ⟨(C20_engine_only emptyUserAgent ⟨str "Mozilla", str "5.0", []⟩
      ⟨str "Presto", str "2.12", []⟩ rfl (by decide)).1,
   (C20_engine_only emptyUserAgent ⟨str "Mozilla", str "5.0", []⟩
      ⟨str "Presto", str "2.12", []⟩ rfl (by decide)).2 ⟨str "Version", str "12.16", []⟩ []
      (by decide) (by decide) (by decide)⟩

end user_agent
